import Mathlib

/-!
# Verification of the skyjoliance round engine

Shallow embedding of `src/skyjoliance/model.py` (a single-round Skyjo card
game engine) and proofs about it.

Embedding conventions:
* Python objects become immutable Lean structures; every mutating method
  becomes a function from the old state to the new state.
* Python exceptions become an `Err` inductive mirroring the exception
  classes of the source (`CardPositionError`, `CardStateError`,
  `ImpossibleGameStateError`, plus the builtin `ValueError`, `IndexError`
  and `AttributeError` the source can raise).  A method that can raise
  returns `Except (Err × σ) (α × σ)`: Python mutations performed before a
  `raise` persist on the live object, so the error case carries the
  (possibly partially mutated) state, exactly as the caller observes it.
* Python's `list.pop()` (top of a stack, top = end of list) is `listPop`.
* Strategies receive deep copies of the round/player in the source
  (`self.copy()`); since a copy carries no way to reach the live object,
  a strategy is modelled as pure functions over function-free snapshot
  views (`RoundView`, `PlayerView`), and `Round.copy` / `Player.copy`
  build those views.
* `generate_deck` is embedded without the `random.Random(seed).shuffle`
  call (the shuffle is a permutation drawn from Python's Mersenne
  twister, outside the embedding); no theorem below depends on the
  shuffle order, only on deck contents and positions of an arbitrary deck.
-/

namespace Skyjoliance

/-- `CardState` enum of the source. -/
inductive CardState where
  | face_up
  | face_down
deriving DecidableEq, Repr

/-- `RoundState` enum of the source. -/
inductive RoundState where
  | awaiting_distribution
  | awaiting_two_cards_reveal
  | ongoing
  | last_turn
  | ended
deriving DecidableEq, Repr

/-- Exception classes raised by the source (including Python builtins). -/
inductive Err where
  | cardPositionError (msg : String)
  | cardStateError (msg : String)
  | impossibleGameStateError (msg : String)
  | valueError (msg : String)
  | indexError (msg : String)
  | attributeError (msg : String)
deriving DecidableEq, Repr

/-- `Card`: a fixed integer value plus mutable visibility. -/
structure Card where
  value : Int
  state : CardState := CardState.face_down
deriving DecidableEq, Repr

instance : Inhabited Card := ⟨{ value := 0 }⟩

/-- `Card.copy`. -/
def Card.copy (c : Card) : Card := { value := c.value, state := c.state }

/-- `Card.flip(new_state=None)`: toggle visibility, or set it directly. -/
def Card.flip (c : Card) (new_state : Option CardState := none) : Card :=
  match new_state with
  | none =>
    if c.state = CardState.face_down then { c with state := CardState.face_up }
    else { c with state := CardState.face_down }
  | some s => { c with state := s }

/-- `generate_deck` (shuffle omitted, see module docstring): 5 × (-2),
10 × (-1), 15 × 0 and 10 of each value 1..12, all face-down. -/
def generate_deck : List Card :=
  (List.replicate 5 (-2 : Int) ++ List.replicate 10 (-1) ++ List.replicate 15 0 ++
      (List.range 12).flatMap (fun i => List.replicate 10 ((i : Int) + 1))).map
    (fun v => { value := v, state := CardState.face_down })

/-- Python `list.pop()`: remove and return the last element. -/
def listPop (s : List α) : Option (α × List α) :=
  match s.getLast? with
  | none => none
  | some c => some (c, s.dropLast)

/-- `GridOfCards`: flat list of optional cards, accessed as a 2D grid via
`_get_index(row, col) = row * cols + col`. -/
structure GridOfCards where
  cards : List (Option Card)
  rows : Nat
  cols : Nat
deriving DecidableEq, Repr

/-- `GridOfCards.__init__(rows, cols)`. -/
def GridOfCards.new (rows cols : Nat) : GridOfCards :=
  { cards := List.replicate (rows * cols) none, rows := rows, cols := cols }

/-- `GridOfCards.copy`. -/
def GridOfCards.copy (g : GridOfCards) : GridOfCards :=
  { g with cards := g.cards.map (fun c => c.map Card.copy) }

/-- `GridOfCards._get_index`: bounds-checked row-major index.  Coordinates
are `Nat`, so the source's `row < 0` / `col < 0` checks are vacuous. -/
def GridOfCards.getIndex (g : GridOfCards) (row col : Nat) : Except Err Nat :=
  if row ≥ g.rows then Except.error (Err.indexError "Row index out of range")
  else if col ≥ g.cols then Except.error (Err.indexError "Column index out of range")
  else Except.ok (row * g.cols + col)

/-- `GridOfCards.reveal_card`: flip the card at `(row, col)` face-up;
errors if absent or already face-up.  Errors happen before any mutation. -/
def GridOfCards.reveal_card (g : GridOfCards) (row col : Nat) : Except Err GridOfCards :=
  match g.getIndex row col with
  | Except.error e => Except.error e
  | Except.ok index =>
    match g.cards.getD index none with
    | none => Except.error (Err.cardPositionError "No card at position")
    | some card =>
      if card.state = CardState.face_up then
        Except.error (Err.cardStateError "Card at position is already face up")
      else
        Except.ok { g with cards := g.cards.set index (some (card.flip (some CardState.face_up))) }

/-- `GridOfCards.pick_card`: remove and return the card at `(row, col)`. -/
def GridOfCards.pick_card (g : GridOfCards) (row col : Nat) :
    Except Err (Card × GridOfCards) :=
  match g.getIndex row col with
  | Except.error e => Except.error e
  | Except.ok index =>
    match g.cards.getD index none with
    | none => Except.error (Err.cardPositionError "No card at position")
    | some card => Except.ok (card, { g with cards := g.cards.set index none })

/-- `GridOfCards.place_card`: store a card at `(row, col)`; errors if occupied. -/
def GridOfCards.place_card (g : GridOfCards) (row col : Nat) (card : Card) :
    Except Err GridOfCards :=
  match g.getIndex row col with
  | Except.error e => Except.error e
  | Except.ok index =>
    match g.cards.getD index none with
    | some _ => Except.error (Err.cardPositionError "Position is already occupied")
    | none => Except.ok { g with cards := g.cards.set index (some card) }

/-- `GridOfCards.replace_card`: `pick_card` then `place_card` at the same
position, returning the displaced card. -/
def GridOfCards.replace_card (g : GridOfCards) (position : Nat × Nat) (card : Card) :
    Except Err (Card × GridOfCards) :=
  match g.pick_card position.1 position.2 with
  | Except.error e => Except.error e
  | Except.ok (old_card, g1) =>
    match g1.place_card position.1 position.2 card with
    | Except.error e => Except.error e
    | Except.ok g2 => Except.ok (old_card, g2)

/-- `GridOfCards.pick_column`: remove and return the three cards of a
column, rows 0,1,2 in order; only for 3-row grids.  A failing pick in the
middle leaves the earlier picks done (the error carries the state). -/
def GridOfCards.pick_column (g : GridOfCards) (col : Nat) :
    Except (Err × GridOfCards) ((Card × Card × Card) × GridOfCards) :=
  if g.rows ≠ 3 then
    Except.error (Err.valueError "pick_column is only supported for 3-row grids", g)
  else
    match g.pick_card 0 col with
    | Except.error e => Except.error (e, g)
    | Except.ok (c0, g0) =>
      match g0.pick_card 1 col with
      | Except.error e => Except.error (e, g0)
      | Except.ok (c1, g1) =>
        match g1.pick_card 2 col with
        | Except.error e => Except.error (e, g1)
        | Except.ok (c2, g2) => Except.ok ((c0, c1, c2), g2)

/-- The per-column test of `identify_any_complete_column` (the source
builds `column`, skips it if any cell is `None`, else requires every
present cell face-up). -/
def GridOfCards.colCompleted (g : GridOfCards) (col : Nat) : Bool :=
  if ((List.range g.rows).map (fun row => g.cards.getD (row * g.cols + col) none)).any
      (fun card => card.isNone) then false
  else ((List.range g.rows).map (fun row => g.cards.getD (row * g.cols + col) none)).all
    (fun card =>
      match card with
      | some c => c.state = CardState.face_up
      | none => true)

/-- `GridOfCards.identify_any_complete_column`: collect the completed
columns; `none` if there are none, the unique one if exactly one, and an
`ImpossibleGameStateError` if several. -/
def GridOfCards.identify_any_complete_column (g : GridOfCards) :
    Except Err (Option Nat) :=
  let cols_to_discard := (List.range g.cols).filter (fun col => g.colCompleted col)
  match cols_to_discard with
  | [] => Except.ok none
  | [c] => Except.ok (some c)
  | _ => Except.error (Err.impossibleGameStateError "Multiple complete revealed columns found")

/-- `GridOfCards.all_cards_revealed`: every present cell is face-up. -/
def GridOfCards.all_cards_revealed (g : GridOfCards) : Bool :=
  g.cards.all (fun card =>
    match card with
    | none => true
    | some c => c.state = CardState.face_up)

/-- `DrawDecision` enum. -/
inductive DrawDecision where
  | draw_from_deck
  | draw_from_discard
deriving DecidableEq, Repr

/-- `PlayDecision` enum. -/
inductive PlayDecision where
  | discard_drawn_card_and_reveal
  | replace_card_in_grid
deriving DecidableEq, Repr

/-- `PlayerPlayAction` dataclass. -/
structure PlayerPlayAction where
  action : PlayDecision
  target_position : Nat × Nat
deriving DecidableEq, Repr

/-- Function-free snapshot of a `Player`, as handed to strategies
(source: `player.copy()`). -/
structure PlayerView where
  name : String
  cards : Option GridOfCards
deriving DecidableEq, Repr

/-- Function-free snapshot of a `Round`, as handed to strategies
(source: `self.copy()`). -/
structure RoundView where
  players : List PlayerView
  current_player_index : Nat
  cards_deck : List Card
  discard_pile : List Card
  state : RoundState
  starting_player_index : Option Nat
  player_who_triggered_last_turn : Option Nat
deriving DecidableEq, Repr

/-- `PlayerStrategy` protocol: three pure decision functions over
read-only snapshots. -/
structure PlayerStrategy where
  name : String
  decide_draw : RoundView → Nat → DrawDecision
  decide_play : Card → RoundView → Nat → PlayerPlayAction
  decide_reveal_two_cards : PlayerView → (Nat × Nat) × (Nat × Nat)

/-- `Player`: a name, a strategy and an optional grid. -/
structure Player where
  name : String
  strategy : PlayerStrategy
  cards : Option GridOfCards := none

/-- `Player.copy`: the function-free snapshot a strategy receives. -/
def Player.copy (p : Player) : PlayerView :=
  { name := p.name, cards := p.cards.map GridOfCards.copy }

/-- Inner loop of `Player.place_distributed_cards`: place card `i` at
`(i / cols, i % cols)` on the freshly created grid. -/
def placeLoop (g : GridOfCards) (cards : List Card) (cols : Nat) (i : Nat) :
    Except Err GridOfCards :=
  match cards with
  | [] => Except.ok g
  | c :: rest =>
    match g.place_card (i / cols) (i % cols) c with
    | Except.error e => Except.error e
    | Except.ok g1 => placeLoop g1 rest cols (i + 1)

/-- `Player.place_distributed_cards(cards, configuration)`: reject a
length/shape mismatch, else overwrite `self._cards` with a fresh grid and
place the cards row-major.  The error case carries the player state: the
shape check precedes the grid assignment, so a `ShapeMismatch` leaves the
player untouched, and a mid-loop placement error leaves the partially
filled fresh grid in place (matching the source's in-place mutation). -/
def Player.place_distributed_cards (p : Player) (cards : List Card)
    (configuration : Nat × Nat) : Except (Err × Player) Player :=
  let rows := configuration.1
  let cols := configuration.2
  if cards.length ≠ rows * cols then
    Except.error (Err.impossibleGameStateError "Number of cards does not match grid size", p)
  else
    match placeLoop (GridOfCards.new rows cols) cards cols 0 with
    | Except.error e => Except.error (e, { p with cards := some (GridOfCards.new rows cols) })
    | Except.ok g => Except.ok { p with cards := some g }

/-- `Player.all_cards_revealed`: errors with `NoGrid` if never dealt. -/
def Player.all_cards_revealed (p : Player) : Except Err Bool :=
  match p.cards with
  | none => Except.error (Err.impossibleGameStateError "Player has no card configuration.")
  | some g => Except.ok (g.all_cards_revealed)

/-- The `if/elif` block of `Player.play_card`: apply the chosen play
variant to the grid, returning the card to discard (the drawn card for
discard-and-reveal, the displaced card for replace) and the new grid. -/
def applyPlayAction (g : GridOfCards) (drawn_card : Card) (play_action : PlayerPlayAction) :
    Except Err (Card × GridOfCards) :=
  match play_action.action with
  | PlayDecision.discard_drawn_card_and_reveal =>
    match g.reveal_card play_action.target_position.1 play_action.target_position.2 with
    | Except.error e => Except.error e
    | Except.ok g1 => Except.ok (drawn_card, g1)
  | PlayDecision.replace_card_in_grid =>
    g.replace_card play_action.target_position drawn_card

/-- `Player.play_card(drawn_card, play_action)`: apply the play variant,
then clear a completed column if one exists; returns the 1 or 4 discarded
cards.  The error case carries the player as the source leaves it. -/
def Player.play_card (p : Player) (drawn_card : Card) (play_action : PlayerPlayAction) :
    Except (Err × Player) (List Card × Player) :=
  match p.cards with
  | none => Except.error (Err.impossibleGameStateError "Player has no card configuration.", p)
  | some g =>
    match applyPlayAction g drawn_card play_action with
    | Except.error e => Except.error (e, p)
    | Except.ok (discarded_card, g1) =>
      match g1.identify_any_complete_column with
      | Except.error e => Except.error (e, { p with cards := some g1 })
      | Except.ok none => Except.ok ([discarded_card], { p with cards := some g1 })
      | Except.ok (some complete_column) =>
        match g1.pick_column complete_column with
        | Except.error (e, g2) => Except.error (e, { p with cards := some g2 })
        | Except.ok ((c0, c1, c2), g2) =>
          Except.ok ([discarded_card, c0, c1, c2], { p with cards := some g2 })

/-- `Round` dataclass. -/
structure Round where
  players : List Player
  current_player_index : Nat := 0
  cards_deck : List Card := generate_deck
  discard_pile : List Card := []
  state : RoundState := RoundState.awaiting_distribution
  starting_player_index : Option Nat := none
  player_who_triggered_last_turn : Option Nat := none

/-- `Round.next_player`: advance the cursor cyclically.  (With zero
players the source would raise `ZeroDivisionError`; `Nat` modulo leaves
the index unchanged there — all theorems about rounds assume players.) -/
def Round.next_player (r : Round) : Round :=
  { r with current_player_index := (r.current_player_index + 1) % r.players.length }

/-- `Round.copy`: the function-free snapshot a strategy receives. -/
def Round.copy (r : Round) : RoundView :=
  { players := r.players.map Player.copy
    current_player_index := r.current_player_index
    cards_deck := r.cards_deck.map Card.copy
    discard_pile := r.discard_pile.map Card.copy
    state := r.state
    starting_player_index := r.starting_player_index
    player_who_triggered_last_turn := r.player_who_triggered_last_turn }

/-- One pass of the dealing loop of `Round.distribute_cards`: pop one card
from the deck top for each hand, in hand order.  The error state carries
the partially consumed deck. -/
def dealPass (deck : List Card) (hands : List (List Card)) :
    Except (Err × List Card) (List (List Card) × List Card) :=
  match hands with
  | [] => Except.ok ([], deck)
  | h :: rest =>
    match listPop deck with
    | none => Except.error (Err.indexError "pop from empty list", deck)
    | some (card, deck1) =>
      match dealPass deck1 rest with
      | Except.error e => Except.error e
      | Except.ok (rest1, deck2) => Except.ok ((h ++ [card]) :: rest1, deck2)

/-- The full dealing loop: `cards_per_player` passes of `dealPass`. -/
def dealLoop (k : Nat) (deck : List Card) (hands : List (List Card)) :
    Except (Err × List Card) (List (List Card) × List Card) :=
  match k with
  | 0 => Except.ok (hands, deck)
  | Nat.succ k1 =>
    match dealPass deck hands with
    | Except.error e => Except.error e
    | Except.ok (hands1, deck1) => dealLoop k1 deck1 hands1

/-- The `zip(self.players, hands)` loop of `Round.distribute_cards`:
deal each hand to its player in order; players beyond the hands list are
left untouched.  The error state carries the partially dealt players. -/
def placeAll (players : List Player) (hands : List (List Card)) (cfg : Nat × Nat) :
    Except (Err × List Player) (List Player) :=
  match players, hands with
  | [], _ => Except.ok []
  | ps, [] => Except.ok ps
  | p :: ps, h :: hs =>
    match p.place_distributed_cards h cfg with
    | Except.error (e, p1) => Except.error (e, p1 :: ps)
    | Except.ok p1 =>
      match placeAll ps hs cfg with
      | Except.error (e, ps1) => Except.error (e, p1 :: ps1)
      | Except.ok ps1 => Except.ok (p1 :: ps1)

/-- `Round.distribute_cards(configuration=(3,4))`: guard against an
existing grid (`AlreadyDistributed`, a `ValueError`) and a wrong state;
deal `rows*cols` cards interleaved (one per player per pass); lay each
hand into its player's grid; pop one more card, flip it face-up and push
it on the discard pile; transition to `AWAITING_TWO_CARDS_REVEAL`. -/
def Round.distribute_cards (r : Round) (configuration : Nat × Nat := (3, 4)) :
    Except (Err × Round) Round :=
  if r.players.any (fun p => p.cards.isSome) then
    Except.error (Err.valueError "Cards have already been distributed to players.", r)
  else if r.state ≠ RoundState.awaiting_distribution then
    Except.error (Err.impossibleGameStateError
      "Cannot distribute cards when round has already started.", r)
  else
    let cards_per_player := configuration.1 * configuration.2
    match dealLoop cards_per_player r.cards_deck (r.players.map (fun _ => [])) with
    | Except.error (e, deck1) => Except.error (e, { r with cards_deck := deck1 })
    | Except.ok (hands, deck1) =>
      match placeAll r.players hands configuration with
      | Except.error (e, players1) =>
        Except.error (e, { r with players := players1, cards_deck := deck1 })
      | Except.ok players1 =>
        match listPop deck1 with
        | none => Except.error (Err.indexError "pop from empty list",
            { r with players := players1, cards_deck := deck1 })
        | some (card, deck2) =>
          Except.ok { r with
            players := players1
            cards_deck := deck2
            discard_pile := r.discard_pile ++ [card.flip (some CardState.face_up)]
            state := RoundState.awaiting_two_cards_reveal }

/-- One reveal of the initial-reveal loop: `player._cards.reveal_card`
(an `AttributeError` if the player has no grid, as in the source). -/
def revealOne (p : Player) (pos : Nat × Nat) : Except (Err × Player) Player :=
  match p.cards with
  | none => Except.error (Err.attributeError "NoneType object has no attribute reveal_card", p)
  | some g =>
    match g.reveal_card pos.1 pos.2 with
    | Except.error e => Except.error (e, p)
    | Except.ok g1 => Except.ok { p with cards := some g1 }

/-- The per-player loop of `Round.make_player_reveal_two_cards`: ask each
player's strategy for two positions and reveal both.  The error state
carries the partially revealed players. -/
def revealTwoLoop : List Player → Except (Err × List Player) (List Player)
  | [] => Except.ok []
  | p :: rest =>
    match revealOne p (p.strategy.decide_reveal_two_cards p.copy).1 with
    | Except.error (e, p1) => Except.error (e, p1 :: rest)
    | Except.ok p1 =>
      match revealOne p1 (p.strategy.decide_reveal_two_cards p.copy).2 with
      | Except.error (e, p2) => Except.error (e, p2 :: rest)
      | Except.ok p2 =>
        match revealTwoLoop rest with
        | Except.error (e, rest1) => Except.error (e, p2 :: rest1)
        | Except.ok rest1 => Except.ok (p2 :: rest1)

/-- `Round.make_player_reveal_two_cards`: guard the state, reveal two
strategy-chosen cards for every player in list order, transition to
`ONGOING`. -/
def Round.make_player_reveal_two_cards (r : Round) : Except (Err × Round) Round :=
  if r.state ≠ RoundState.awaiting_two_cards_reveal then
    Except.error (Err.impossibleGameStateError
      "Cannot reveal two cards when round has already started.", r)
  else
    match revealTwoLoop r.players with
    | Except.error (e, players1) => Except.error (e, { r with players := players1 })
    | Except.ok players1 =>
      Except.ok { r with players := players1, state := RoundState.ongoing }

/-- The draw step of `Round.make_current_player_play`: ask the current
player's strategy where to draw from and pop from that stack.  Popping an
empty stack is Python's `IndexError: pop from empty list` for either
source. -/
def Round.drawPhase (r : Round) (current_player : Player) :
    Except (Err × Round) (Card × Round) :=
  match current_player.strategy.decide_draw r.copy r.current_player_index with
  | DrawDecision.draw_from_deck =>
    match listPop r.cards_deck with
    | none => Except.error (Err.indexError "pop from empty list", r)
    | some (card, deck1) => Except.ok (card, { r with cards_deck := deck1 })
  | DrawDecision.draw_from_discard =>
    match listPop r.discard_pile with
    | none => Except.error (Err.indexError "pop from empty list", r)
    | some (card, pile1) => Except.ok (card, { r with discard_pile := pile1 })

/-- The round state after a successful play, before the last-turn check:
the mutated current player is written back (in Python this happens by
aliasing) and the discard pile is extended with the returned cards, in
the order returned. -/
def Round.afterDiscard (r1 : Round) (discarded_cards : List Card) (p1 : Player) : Round :=
  { r1 with
    players := r1.players.set r1.current_player_index p1
    discard_pile := r1.discard_pile ++ discarded_cards }

/-- Tail of `Round.make_current_player_play` after a successful play:
`self.discard_pile.extend(...)`, then trigger `LAST_TURN` (recording the
trigger player) if the current player's grid is now fully revealed and
the round is not already in `LAST_TURN`; returns the (possibly updated)
state tag. -/
def Round.finishPlay (r1 : Round) (discarded_cards : List Card) (p1 : Player) :
    Except (Err × Round) (RoundState × Round) :=
  match p1.all_cards_revealed with
  | Except.error e => Except.error (e, r1.afterDiscard discarded_cards p1)
  | Except.ok all_rev =>
    if all_rev = true ∧ (r1.afterDiscard discarded_cards p1).state ≠ RoundState.last_turn then
      Except.ok (RoundState.last_turn,
        { r1.afterDiscard discarded_cards p1 with
          state := RoundState.last_turn
          player_who_triggered_last_turn :=
            some (r1.afterDiscard discarded_cards p1).current_player_index })
    else
      Except.ok ((r1.afterDiscard discarded_cards p1).state, r1.afterDiscard discarded_cards p1)

/-- `Round.make_current_player_play`: guard the state (`ONGOING` or
`LAST_TURN`), draw per the strategy, play per the strategy via
`Player.play_card`, then `finishPlay` (extend the discard pile and run
the last-turn check). -/
def Round.make_current_player_play (r : Round) :
    Except (Err × Round) (RoundState × Round) :=
  if ¬(r.state = RoundState.ongoing ∨ r.state = RoundState.last_turn) then
    Except.error (Err.impossibleGameStateError "Cannot make a play when round state is invalid", r)
  else
    match r.players.get? r.current_player_index with
    | none => Except.error (Err.indexError "list index out of range", r)
    | some current_player =>
      match r.drawPhase current_player with
      | Except.error e => Except.error e
      | Except.ok (drawn_card, r1) =>
        match current_player.play_card drawn_card
            (current_player.strategy.decide_play drawn_card r1.copy r1.current_player_index) with
        | Except.error (e, p1) =>
          Except.error (e, { r1 with players := r1.players.set r1.current_player_index p1 })
        | Except.ok (discarded_cards, p1) =>
          r1.finishPlay discarded_cards p1

/-! ## Observers used by the theorems -/

/-- Number of present (non-empty) cells of a grid. -/
def GridOfCards.cardCount (g : GridOfCards) : Nat :=
  g.cards.countP (fun c => c.isSome)

/-- Number of present cells of a player's grid (0 before dealing). -/
def Player.cardCount (p : Player) : Nat :=
  match p.cards with
  | none => 0
  | some g => g.cardCount

/-- Total number of cards across deck, discard pile and all grids. -/
def Round.totalCards (r : Round) : Nat :=
  r.cards_deck.length + r.discard_pile.length + (r.players.map Player.cardCount).sum

/-- The cell of a grid at `(row, col)` under the source's row-major index. -/
def GridOfCards.cell (g : GridOfCards) (row col : Nat) : Option Card :=
  g.cards.getD (row * g.cols + col) none

/-- The grid cell `(row, col)` of player `j` of a round, `none` when the
player or the grid is absent. -/
def Round.playerGridCell (r : Round) (j row col : Nat) : Option Card :=
  match r.players.get? j with
  | none => none
  | some p =>
    match p.cards with
    | none => none
    | some g => g.cell row col

/-- Whether a player holds a fully populated 3×4 grid of face-down cards. -/
def Player.fullyDealtFaceDown (p : Player) : Bool :=
  match p.cards with
  | none => false
  | some g =>
    g.rows = 3 && g.cols = 4 && g.cards.length = 12 &&
      g.cards.all (fun c =>
        match c with
        | some card => card.state = CardState.face_down
        | none => false)

/-- The public engine operations, for statements about call sequences. -/
inductive EngineOp where
  | distribute (cfg : Nat × Nat)
  | revealTwo
  | play
  | next

/-- Run one engine operation; in Python the exception leaves the mutated
object behind, so the error state is the state after a failed call. -/
def Round.runOp (r : Round) (op : EngineOp) : Round :=
  match op with
  | EngineOp.distribute cfg =>
    match r.distribute_cards cfg with
    | Except.ok r1 => r1
    | Except.error (_, r1) => r1
  | EngineOp.revealTwo =>
    match r.make_player_reveal_two_cards with
    | Except.ok r1 => r1
    | Except.error (_, r1) => r1
  | EngineOp.play =>
    match r.make_current_player_play with
    | Except.ok (_, r1) => r1
    | Except.error (_, r1) => r1
  | EngineOp.next => r.next_player

/-- Run a sequence of engine operations. -/
def Round.runOps (r : Round) (ops : List EngineOp) : Round :=
  ops.foldl Round.runOp r

/-- Whether an `Except` result is a success. -/
def exceptIsOk : Except ε α → Bool
  | Except.ok _ => true
  | Except.error _ => false

/-- The state a stateful operation leaves behind, whether it succeeded
or raised (as the caller of the Python method observes it). -/
def outState : Except (ε × σ) σ → σ
  | Except.ok s => s
  | Except.error (_, s) => s

/-- The hand the interleaved deal gives player `j` (0-based) of `n`:
cards at deck indices `|deck| - 1 - (m * n + j)` for `m = 0, …, k-1`. -/
def dealtHand (deck : List Card) (n k j : Nat) : List Card :=
  (List.range k).map (fun m => deck.getD (deck.length - 1 - (m * n + j)) default)

/-- Whether player `j` of a round holds a grid with every present cell
face-up. -/
def Round.playerAllRevealed (r : Round) (j : Nat) : Bool :=
  match r.players.get? j with
  | none => false
  | some p =>
    match p.cards with
    | none => false
    | some g => g.all_cards_revealed

/-- The spec's notion of a completed column: every cell of the column is
present and face-up (value equality plays no role). -/
def completedColumn (g : GridOfCards) (c : Nat) : Prop :=
  c < g.cols ∧ ∀ row, row < g.rows →
    ∃ card, g.cell row c = some card ∧ card.state = CardState.face_up

/-! ## Concrete fixtures -/

/-- A deterministic test strategy: always draw from the deck, always
discard-and-reveal targeting `(0, 0)`, initially reveal `(0, 0)` and
`(0, 1)`. -/
def constStrategy : PlayerStrategy where
  name := "const"
  decide_draw := fun _ _ => DrawDecision.draw_from_deck
  decide_play := fun _ _ _ =>
    { action := PlayDecision.discard_drawn_card_and_reveal, target_position := (0, 0) }
  decide_reveal_two_cards := fun _ => ((0, 0), (0, 1))

/-- Like `constStrategy` but drawing from the discard pile. -/
def discardStrategy : PlayerStrategy :=
  { constStrategy with decide_draw := fun _ _ => DrawDecision.draw_from_discard }

/-- A face-down test deck of `n` cards with values `0, …, n-1`. -/
def sampleDeck (n : Nat) : List Card :=
  (List.range n).map (fun i => { value := (i : Int), state := CardState.face_down })

/-- A fresh one-player round over a 14-card deck (12 to deal, one discard
seed, one to draw). -/
def round1 : Round where
  players := [{ name := "A", strategy := constStrategy, cards := none }]
  current_player_index := 0
  cards_deck := sampleDeck 14
  discard_pile := []
  state := RoundState.awaiting_distribution
  starting_player_index := none
  player_who_triggered_last_turn := none

/-- `round1` after dealing and the initial two reveals: `ONGOING`, one
card left in the deck, cells `(0,0)` and `(0,1)` of the only player
face-up. -/
def round2 : Round :=
  round1.runOps [EngineOp.distribute (3, 4), EngineOp.revealTwo]

/-- A 3×4 grid with twelve cards, `(0, 1)` face-up and the rest
face-down. -/
def gridA : GridOfCards where
  cards := [some { value := 5, state := CardState.face_down },
    some { value := 3, state := CardState.face_up },
    some { value := -1, state := CardState.face_down },
    some { value := 0, state := CardState.face_down },
    some { value := 7, state := CardState.face_down },
    some { value := 2, state := CardState.face_down },
    some { value := 9, state := CardState.face_down },
    some { value := 1, state := CardState.face_down },
    some { value := 11, state := CardState.face_down },
    some { value := 6, state := CardState.face_down },
    some { value := 4, state := CardState.face_down },
    some { value := 8, state := CardState.face_down }]
  rows := 3
  cols := 4

/-- `gridA` after revealing `(0, 0)`. -/
def gridA1 : GridOfCards :=
  { gridA with cards := gridA.cards.set 0 (some { value := 5, state := CardState.face_up }) }

/-- A player already holding `gridA`. -/
def playerA : Player where
  name := "A"
  strategy := constStrategy
  cards := some gridA

/-- `playerA` after revealing `(0, 0)`. -/
def playerA1 : Player := { playerA with cards := some gridA1 }

/-- The drawn card of the C4 fixture. -/
def drawnA : Card := { value := 7, state := CardState.face_down }

/-- Discard-and-reveal targeting `(0, 0)`. -/
def actA : PlayerPlayAction :=
  { action := PlayDecision.discard_drawn_card_and_reveal, target_position := (0, 0) }

/-- A twelve-card hand for re-dealing `playerA`. -/
def handB : List Card := sampleDeck 12

/-- An `ONGOING` round whose strategy draws from the empty deck. -/
def emptyDeckRound : Round where
  players := [playerA]
  current_player_index := 0
  cards_deck := []
  discard_pile := [{ value := 4, state := CardState.face_up }]
  state := RoundState.ongoing
  starting_player_index := none
  player_who_triggered_last_turn := none

/-- An `ONGOING` round whose strategy draws from the empty discard pile. -/
def emptyDiscardRound : Round where
  players := [{ playerA with strategy := discardStrategy }]
  current_player_index := 0
  cards_deck := sampleDeck 3
  discard_pile := []
  state := RoundState.ongoing
  starting_player_index := none
  player_who_triggered_last_turn := none

/-- A round already in `LAST_TURN` with a recorded trigger. -/
def lastTurnRound : Round where
  players := [playerA]
  current_player_index := 0
  cards_deck := sampleDeck 2
  discard_pile := [{ value := 4, state := CardState.face_up }]
  state := RoundState.last_turn
  starting_player_index := some 0
  player_who_triggered_last_turn := some 0

/-- The error (if any) of a `make_current_player_play` call. -/
def errOf (r : Round) : Option Err :=
  match r.make_current_player_play with
  | Except.error (e, _) => some e
  | Except.ok _ => none

/-! ## List helper lemmas -/

theorem listPop_eq_none {s : List α} : listPop s = none ↔ s = [] := by
  cases s with
  | nil => simp [listPop]
  | cons a t =>
    have h : (a :: t).getLast? = some ((a :: t).getLast (by simp)) :=
      List.getLast?_eq_getLast _ (by simp)
    simp [listPop, h]

theorem listPop_eq_some {s : List α} {c : α} {s1 : List α}
    (h : listPop s = some (c, s1)) : s = s1 ++ [c] ∧ s.length = s1.length + 1 := by
  unfold listPop at h
  cases hl : s.getLast? with
  | none => rw [hl] at h; simp at h
  | some x =>
    rw [hl] at h
    simp only [Option.some.injEq, Prod.mk.injEq] at h
    obtain ⟨hx, hs⟩ := h
    subst hx
    subst hs
    have hne : s ≠ [] := by
      intro hnil
      rw [hnil] at hl
      simp at hl
    have h2 := List.getLast?_eq_getLast s hne
    rw [h2] at hl
    injection hl with hl
    refine ⟨?_, ?_⟩
    · conv_lhs => rw [← List.dropLast_append_getLast hne]
      rw [hl]
    · have hpos : 0 < s.length := List.length_pos.mpr hne
      rw [List.length_dropLast]
      omega

theorem listPop_append {l : List α} {c : α} : listPop (l ++ [c]) = some (c, l) := by
  simp [listPop, List.getLast?_concat]

/-- Setting an index back to the value it already holds is the identity. -/
theorem list_set_self {l : List α} {n : Nat} {a : α}
    (h : l.get? n = some a) : l.set n a = l := by
  induction l generalizing n with
  | nil => simp at h
  | cons x t ih =>
    cases n with
    | zero =>
      obtain rfl : x = a := by simpa using h
      simp
    | succ m =>
      simp only [List.get?] at h
      simp [List.set, ih h]

/-- Effect of `List.set` on a `countP`, additive form. -/
theorem countP_set_eq {l : List (Option Card)} {n : Nat} {old new : Option Card}
    (h : l.get? n = some old) :
    (l.set n new).countP (fun c => c.isSome) + (if old.isSome then 1 else 0) =
      l.countP (fun c => c.isSome) + (if new.isSome then 1 else 0) := by
  induction l generalizing n with
  | nil => simp at h
  | cons x t ih =>
    cases n with
    | zero =>
      obtain rfl : x = old := by simpa using h
      simp only [List.set, List.countP_cons]
      cases x <;> cases new <;> simp
    | succ m =>
      simp only [List.get?] at h
      simp only [List.set, List.countP_cons]
      have := ih h
      omega

/-- Sum of a map over a `List.set`, additive form. -/
theorem sum_map_set_eq {l : List β} {n : Nat} {old x : β} (f : β → Nat)
    (h : l.get? n = some old) :
    ((l.set n x).map f).sum + f old = (l.map f).sum + f x := by
  induction l generalizing n with
  | nil => simp at h
  | cons a t ih =>
    cases n with
    | zero =>
      obtain rfl : a = old := by simpa using h
      simp [List.set]
      omega
    | succ m =>
      simp only [List.get?] at h
      simp only [List.set, List.map_cons, List.sum_cons]
      have := ih h
      omega

/-! ## Grid operation effect lemmas -/

theorem getD_some {l : List (Option Card)} {i : Nat} {c : Card}
    (h : l.getD i none = some c) : l.get? i = some (some c) := by
  rw [List.getD_eq_getElem?_getD] at h
  rw [List.get?_eq_getElem?]
  cases hl : l[i]? with
  | none => rw [hl] at h; simp at h
  | some v => rw [hl] at h; simp at h; rw [h]

theorem getIndex_ok {g : GridOfCards} {row col idx : Nat}
    (h : g.getIndex row col = Except.ok idx) :
    row < g.rows ∧ col < g.cols ∧ idx = row * g.cols + col := by
  unfold GridOfCards.getIndex at h
  split at h
  · simp at h
  · split at h
    · simp at h
    · simp only [Except.ok.injEq] at h
      omega

theorem reveal_card_ok {g g1 : GridOfCards} {row col : Nat}
    (h : g.reveal_card row col = Except.ok g1) :
    g1.rows = g.rows ∧ g1.cols = g.cols ∧ g1.cards.length = g.cards.length ∧
      g1.cardCount = g.cardCount := by
  unfold GridOfCards.reveal_card at h
  split at h
  · simp at h
  · rename_i idx hidx
    split at h
    · simp at h
    · rename_i card hget
      split at h
      · simp at h
      · simp only [Except.ok.injEq] at h
        subst h
        refine ⟨rfl, rfl, by simp, ?_⟩
        have := @countP_set_eq _ _ _ (some (card.flip (some CardState.face_up)))
          (getD_some hget)
        simp only [GridOfCards.cardCount]
        simp at this
        omega

theorem pick_card_ok {g g1 : GridOfCards} {row col : Nat} {card : Card}
    (h : g.pick_card row col = Except.ok (card, g1)) :
    g1.rows = g.rows ∧ g1.cols = g.cols ∧ g1.cards.length = g.cards.length ∧
      g1.cardCount + 1 = g.cardCount ∧
      g.cards.getD (row * g.cols + col) none = some card := by
  unfold GridOfCards.pick_card at h
  split at h
  · simp at h
  · rename_i idx hidx
    split at h
    · simp at h
    · rename_i c hget
      simp only [Except.ok.injEq, Prod.mk.injEq] at h
      obtain ⟨rfl, rfl⟩ := h
      obtain ⟨_, _, rfl⟩ := getIndex_ok hidx
      refine ⟨rfl, rfl, by simp, ?_, hget⟩
      have := @countP_set_eq _ _ _ (none : Option Card) (getD_some hget)
      simp only [GridOfCards.cardCount]
      simp at this
      omega

theorem place_card_ok {g g1 : GridOfCards} {row col : Nat} {card : Card}
    (hlen : row * g.cols + col < g.cards.length)
    (h : g.place_card row col card = Except.ok g1) :
    g1.rows = g.rows ∧ g1.cols = g.cols ∧ g1.cards.length = g.cards.length ∧
      g1.cardCount = g.cardCount + 1 := by
  unfold GridOfCards.place_card at h
  split at h
  · simp at h
  · rename_i idx hidx
    obtain ⟨_, _, rfl⟩ := getIndex_ok hidx
    split at h
    · simp at h
    · rename_i hget
      simp only [Except.ok.injEq] at h
      subst h
      refine ⟨rfl, rfl, by simp, ?_⟩
      have hg : g.cards.get? (row * g.cols + col) = some none := by
        rw [List.get?_eq_getElem?, List.getElem?_eq_getElem hlen]
        rw [List.getD_eq_getElem?_getD, List.getElem?_eq_getElem hlen] at hget
        simpa using hget
      have := @countP_set_eq _ _ _ (some card) hg
      simp only [GridOfCards.cardCount]
      simp at this
      omega

theorem replace_card_ok {g g2 : GridOfCards} {position : Nat × Nat} {card old : Card}
    (h : g.replace_card position card = Except.ok (old, g2)) :
    g2.rows = g.rows ∧ g2.cols = g.cols ∧ g2.cards.length = g.cards.length ∧
      g2.cardCount = g.cardCount ∧
      g.cards.getD (position.1 * g.cols + position.2) none = some old := by
  unfold GridOfCards.replace_card at h
  split at h
  · simp at h
  · rename_i old1 g1 hpick
    split at h
    · simp at h
    · rename_i g2' hplace
      simp only [Except.ok.injEq, Prod.mk.injEq] at h
      obtain ⟨rfl, rfl⟩ := h
      obtain ⟨hr1, hc1, hl1, hn1, hcell⟩ := pick_card_ok hpick
      have hlen : position.1 * g1.cols + position.2 < g1.cards.length := by
        have : g.cards.getD (position.1 * g.cols + position.2) none ≠ none := by
          rw [hcell]; simp
        have hin : position.1 * g.cols + position.2 < g.cards.length := by
          by_contra hout
          exact this (List.getD_eq_default _ _ (by omega))
        rw [hc1, hl1]
        exact hin
      obtain ⟨hr2, hc2, hl2, hn2⟩ := place_card_ok hlen hplace
      refine ⟨by omega, by rw [hc2, hc1], by rw [hl2, hl1], by omega, hcell⟩

theorem pick_column_ok {g g2 : GridOfCards} {col : Nat} {c0 c1 c2 : Card}
    (h : g.pick_column col = Except.ok ((c0, c1, c2), g2)) :
    g2.rows = g.rows ∧ g2.cols = g.cols ∧ g2.cards.length = g.cards.length ∧
      g2.cardCount + 3 = g.cardCount ∧
      g.cards.getD (0 * g.cols + col) none = some c0 := by
  unfold GridOfCards.pick_column at h
  split at h
  · simp at h
  · split at h
    · simp at h
    · rename_i d0 ga hp0
      split at h
      · simp at h
      · rename_i d1 gb hp1
        split at h
        · simp at h
        · rename_i d2 gc hp2
          simp only [Except.ok.injEq, Prod.mk.injEq] at h
          obtain ⟨⟨rfl, rfl, rfl⟩, rfl⟩ := h
          obtain ⟨hra, hca, hla, hna, hcell0⟩ := pick_card_ok hp0
          obtain ⟨hrb, hcb, hlb, hnb, _⟩ := pick_card_ok hp1
          obtain ⟨hrc, hcc, hlc, hnc, _⟩ := pick_card_ok hp2
          exact ⟨by omega, by rw [hcc, hcb, hca], by rw [hlc, hlb, hla], by omega, hcell0⟩

/-- `Player.play_card` conserves cards on success: the new grid's card
count plus the number of returned cards equals the old count plus one
(the drawn card). -/
theorem play_card_count {p p1 : Player} {drawn : Card} {a : PlayerPlayAction}
    {cards : List Card} (h : p.play_card drawn a = Except.ok (cards, p1)) :
    p1.cardCount + cards.length = p.cardCount + 1 := by
  unfold Player.play_card at h
  split at h
  · simp at h
  · rename_i g hg
    cases happ : applyPlayAction g drawn a with
    | error e => rw [happ] at h; simp at h
    | ok res =>
      obtain ⟨discarded, g1⟩ := res
      rw [happ] at h
      have hcount1 : g1.cardCount = g.cardCount := by
        unfold applyPlayAction at happ
        split at happ
        · cases hrv : g.reveal_card a.target_position.1 a.target_position.2 with
          | error e => rw [hrv] at happ; simp at happ
          | ok gg =>
            rw [hrv] at happ
            simp only [Except.ok.injEq, Prod.mk.injEq] at happ
            obtain ⟨-, rfl⟩ := happ
            exact (reveal_card_ok hrv).2.2.2
        · obtain ⟨-, -, -, hcnt, -⟩ := replace_card_ok happ
          exact hcnt
      simp only at h
      split at h
      · simp at h
      · rename_i hid
        -- no completed column: one card discarded, grid unchanged
        simp only [Except.ok.injEq, Prod.mk.injEq] at h
        obtain ⟨rfl, rfl⟩ := h
        simp [Player.cardCount, hg, hcount1]
      · rename_i cc hid
        split at h
        · simp at h
        · rename_i ca cb ccc g2 hpickcol
          simp only [Except.ok.injEq, Prod.mk.injEq] at h
          obtain ⟨rfl, rfl⟩ := h
          obtain ⟨-, -, -, hn3, -⟩ := pick_column_ok hpickcol
          simp [Player.cardCount, hg]
          omega

/-! ## Round-level effect lemmas -/

/-- A successful draw leaves everything but the drawn-from stack intact
and removes exactly one card. -/
theorem drawPhase_ok {r r1 : Round} {cp : Player} {c : Card}
    (h : r.drawPhase cp = Except.ok (c, r1)) :
    r1.players = r.players ∧ r1.state = r.state ∧
      r1.current_player_index = r.current_player_index ∧
      r1.player_who_triggered_last_turn = r.player_who_triggered_last_turn ∧
      r1.cards_deck.length + r1.discard_pile.length + 1 =
        r.cards_deck.length + r.discard_pile.length ∧
      r1.totalCards + 1 = r.totalCards := by
  unfold Round.drawPhase at h
  split at h
  all_goals {
    split at h
    · simp at h
    · rename_i c1 l1 hpop
      simp only [Except.ok.injEq, Prod.mk.injEq] at h
      obtain ⟨rfl, rfl⟩ := h
      obtain ⟨-, hlen⟩ := listPop_eq_some hpop
      refine ⟨rfl, rfl, rfl, rfl, by simp; omega, ?_⟩
      simp only [Round.totalCards]
      omega
  }

/-- A failed draw leaves the round exactly as it was, with Python's
`IndexError` from popping the empty stack. -/
theorem drawPhase_error {r r1 : Round} {cp : Player} {e : Err}
    (h : r.drawPhase cp = Except.error (e, r1)) :
    r1 = r ∧ e = Err.indexError "pop from empty list" ∧
      ((cp.strategy.decide_draw r.copy r.current_player_index = DrawDecision.draw_from_deck ∧
          r.cards_deck = []) ∨
        (cp.strategy.decide_draw r.copy r.current_player_index = DrawDecision.draw_from_discard ∧
          r.discard_pile = [])) := by
  unfold Round.drawPhase at h
  split at h
  · rename_i hdec
    split at h
    · rename_i hpop
      simp only [Except.error.injEq, Prod.mk.injEq] at h
      obtain ⟨rfl, rfl⟩ := h
      exact ⟨rfl, rfl, Or.inl ⟨hdec, listPop_eq_none.mp hpop⟩⟩
    · simp at h
  · rename_i hdec
    split at h
    · rename_i hpop
      simp only [Except.error.injEq, Prod.mk.injEq] at h
      obtain ⟨rfl, rfl⟩ := h
      exact ⟨rfl, rfl, Or.inr ⟨hdec, listPop_eq_none.mp hpop⟩⟩
    · simp at h

/-- A successful `make_current_player_play` conserves the total card
count (cards only move between deck, discard pile and grids). -/
theorem make_play_ok_total {r r2 : Round} {s : RoundState}
    (h : r.make_current_player_play = Except.ok (s, r2)) :
    r2.totalCards = r.totalCards := by
  unfold Round.make_current_player_play at h
  split at h
  · simp at h
  · split at h
    · simp at h
    · rename_i cp hcp
      split at h
      · simp at h
      · rename_i drawn r1 hdraw
        split at h
        · simp at h
        · rename_i cards p1 hplay
          obtain ⟨hpl, hst, hidx, htrig, hdl, htot⟩ := drawPhase_ok hdraw
          have hget1 : r1.players.get? r1.current_player_index = some cp := by
            rw [hpl, hidx]; exact hcp
          have hsum := sum_map_set_eq Player.cardCount (x := p1) hget1
          have hcnt := play_card_count hplay
          have htotAfter : (r1.afterDiscard cards p1).totalCards = r.totalCards := by
            simp only [Round.afterDiscard, Round.totalCards] at htot ⊢
            simp only [List.length_append]
            omega
          unfold Round.finishPlay at h
          split at h
          · simp at h
          · split at h
            · simp only [Except.ok.injEq, Prod.mk.injEq] at h
              obtain ⟨-, rfl⟩ := h
              simpa [Round.totalCards] using htotAfter
            · simp only [Except.ok.injEq, Prod.mk.injEq] at h
              obtain ⟨-, rfl⟩ := h
              exact htotAfter

/-- A successful `revealOne` only flips a card: count, name and strategy
are untouched. -/
theorem revealOne_ok {p p1 : Player} {pos : Nat × Nat}
    (h : revealOne p pos = Except.ok p1) :
    p1.cardCount = p.cardCount ∧ p1.name = p.name ∧ p1.strategy = p.strategy := by
  unfold revealOne at h
  split at h
  · simp at h
  · rename_i g hg
    split at h
    · simp at h
    · rename_i g1 hrv
      simp only [Except.ok.injEq] at h
      subst h
      exact ⟨by simp [Player.cardCount, hg, (reveal_card_ok hrv).2.2.2], rfl, rfl⟩

/-- A failed `revealOne` leaves the player untouched. -/
theorem revealOne_error {p p1 : Player} {pos : Nat × Nat} {e : Err}
    (h : revealOne p pos = Except.error (e, p1)) : p1 = p := by
  unfold revealOne at h
  split at h
  · simp only [Except.error.injEq, Prod.mk.injEq] at h
    exact h.2.symm
  · rename_i g hg
    split at h
    · simp only [Except.error.injEq, Prod.mk.injEq] at h
      exact h.2.symm
    · simp at h

/-- The initial-reveal loop conserves the summed card count, in both the
success and the error outcome. -/
theorem revealTwoLoop_count (ps : List Player) :
    ((outState (revealTwoLoop ps)).map Player.cardCount).sum =
      (ps.map Player.cardCount).sum := by
  induction ps with
  | nil => simp [revealTwoLoop, outState]
  | cons p rest ih =>
    unfold revealTwoLoop
    split
    · rename_i e p1 hr1
      obtain rfl := revealOne_error hr1
      simp [outState]
    · rename_i p1 hr1
      obtain ⟨hc1, -, -⟩ := revealOne_ok hr1
      split
      · rename_i e p2 hr2
        obtain rfl := revealOne_error hr2
        simp [outState, hc1]
      · rename_i p2 hr2
        obtain ⟨hc2, -, -⟩ := revealOne_ok hr2
        split
        · rename_i e rest1 hloop
          rw [hloop] at ih
          simp only [outState] at ih
          simp [outState, hc1, hc2, ih]
        · rename_i rest1 hloop
          rw [hloop] at ih
          simp only [outState] at ih
          simp [outState, hc1, hc2, ih]

/-- `make_player_reveal_two_cards` conserves the total card count, in
both the success and the error outcome. -/
theorem make_reveal_total (r : Round) :
    (outState r.make_player_reveal_two_cards).totalCards = r.totalCards := by
  unfold Round.make_player_reveal_two_cards
  split
  · simp [outState]
  · have hlc := revealTwoLoop_count r.players
    split
    · rename_i e ps1 hloop
      rw [hloop] at hlc
      simp only [outState] at hlc
      simp [outState, Round.totalCards, hlc]
    · rename_i ps1 hloop
      rw [hloop] at hlc
      simp only [outState] at hlc
      simp [outState, Round.totalCards, hlc]

/-! ## Dealing lemmas -/

/-- Characterization of one successful dealing pass: it consumes the top
`hands.length` cards of the deck and appends to hand `j` the card that was
at deck index `deck.length - 1 - j`. -/
theorem dealPass_ok {deck deck1 : List Card} {hands hands1 : List (List Card)}
    (h : dealPass deck hands = Except.ok (hands1, deck1)) :
    hands1.length = hands.length ∧
      deck.length = deck1.length + hands.length ∧
      deck1 = deck.take deck1.length ∧
      ∀ j, j < hands.length →
        hands1.getD j [] = hands.getD j [] ++ [deck.getD (deck.length - 1 - j) default] := by
  induction hands generalizing deck hands1 with
  | nil =>
    unfold dealPass at h
    simp only [Except.ok.injEq, Prod.mk.injEq] at h
    obtain ⟨rfl, rfl⟩ := h
    exact ⟨rfl, by simp, (List.take_length deck).symm, by intro j hj; simp at hj⟩
  | cons hd rest ih =>
    unfold dealPass at h
    split at h
    · simp at h
    · rename_i card deckA hpop
      split at h
      · simp at h
      · rename_i rest1 deckB hrec
        simp only [Except.ok.injEq, Prod.mk.injEq] at h
        obtain ⟨rfl, rfl⟩ := h
        obtain ⟨hdeckeq, hlen⟩ := listPop_eq_some hpop
        obtain ⟨ihlen, ihdeck, ihtake, ihhands⟩ := ih hrec
        refine ⟨by simp [ihlen], by simp only [List.length_cons]; omega, ?_, ?_⟩
        · rw [hdeckeq, List.take_append_of_le_length (by omega)]
          exact ihtake
        · intro j hj
          cases j with
          | zero =>
            simp only [List.getD_cons_zero, Nat.sub_zero]
            have hcard : deck.getD (deck.length - 1) default = card := by
              rw [hdeckeq]
              have h0 : (deckA ++ [card]).length - 1 = deckA.length := by simp
              rw [h0, List.getD_append_right _ _ _ _ (le_refl _), Nat.sub_self]
              rfl
            rw [hcard]
          | succ j1 =>
            simp only [List.getD_cons_succ]
            have hj1 : j1 < rest.length := by simpa using hj
            rw [ihhands j1 hj1, hdeckeq]
            have hlt : deckA.length - 1 - j1 < deckA.length := by omega
            have hidxeq : (deckA ++ [card]).length - 1 - (j1 + 1) = deckA.length - 1 - j1 := by
              simp only [List.length_append, List.length_cons, List.length_nil]
              omega
            rw [hidxeq, List.getD_append _ _ _ _ hlt]

/-- Characterization of a successful `dealLoop`: `k` passes consume the
top `k * hands.length` cards, and hand `j` receives, in order, the cards
at deck indices `deck.length - 1 - (m * n + j)` for `m = 0, …, k-1`. -/
theorem dealLoop_ok {k : Nat} {deck deck1 : List Card} {hands hands1 : List (List Card)}
    (h : dealLoop k deck hands = Except.ok (hands1, deck1)) :
    hands1.length = hands.length ∧
      deck.length = deck1.length + k * hands.length ∧
      deck1 = deck.take deck1.length ∧
      ∀ j, j < hands.length →
        hands1.getD j [] = hands.getD j [] ++
          (List.range k).map
            (fun m => deck.getD (deck.length - 1 - (m * hands.length + j)) default) := by
  induction k generalizing deck hands with
  | zero =>
    unfold dealLoop at h
    simp only [Except.ok.injEq, Prod.mk.injEq] at h
    obtain ⟨rfl, rfl⟩ := h
    exact ⟨rfl, by simp, (List.take_length deck).symm, by intro j hj; simp⟩
  | succ k1 ihk =>
    unfold dealLoop at h
    split at h
    · simp at h
    · rename_i handsA deckA hpass
      obtain ⟨hplen, hpdeck, hptake, hphands⟩ := dealPass_ok hpass
      obtain ⟨ihlen, ihdeck, ihtake, ihhands⟩ := ihk h
      have hn : handsA.length = hands.length := hplen
      rw [hn] at ihdeck
      have hsucc : (k1 + 1) * hands.length = k1 * hands.length + hands.length := by ring
      refine ⟨by omega, by omega, ?_, ?_⟩
      · have hlen1 : deck1.length ≤ deckA.length := by omega
        calc deck1 = List.take deck1.length deckA := ihtake
          _ = List.take deck1.length (List.take deckA.length deck) := by rw [← hptake]
          _ = List.take (min deck1.length deckA.length) deck := List.take_take _ _ _
          _ = List.take deck1.length deck := by rw [Nat.min_eq_left hlen1]
      · intro j hj
        have hjA : j < handsA.length := by omega
        rw [ihhands j hjA, hphands j hj, List.append_assoc]
        congr 1
        rw [List.range_succ_eq_map, List.map_cons]
        simp only [Nat.zero_mul, Nat.zero_add, List.singleton_append, List.map_map]
        congr 1
        apply List.map_congr_left
        intro m hm
        have hmk : m < k1 := List.mem_range.mp hm
        have hmul1 : (m + 1) * hands.length = m * hands.length + hands.length := by ring
        have hmul2 : (m + 1) * hands.length ≤ k1 * hands.length := by
          exact Nat.mul_le_mul_right _ hmk
        have hlt : deckA.length - 1 - (m * handsA.length + j) < deckA.length := by
          have hpos : 0 < deckA.length := by omega
          omega
        have hublast : deckA.length - 1 - (m * handsA.length + j) =
            deck.length - 1 - ((m + 1) * hands.length + j) := by
          rw [hn]
          omega
        simp only [Function.comp]
        have htk : ∀ i, i < deckA.length → deckA.getD i default = deck.getD i default := by
          intro i hi
          conv_lhs => rw [hptake]
          rw [List.getD_eq_getElem?_getD, List.getElem?_take_of_lt hi,
            ← List.getD_eq_getElem?_getD]
        rw [htk _ hlt, hublast]

/-! ## Placement lemmas -/

theorem set_append_length {l l' : List α} {a : α} :
    (l ++ l').set l.length a = l ++ l'.set 0 a := by
  induction l with
  | nil => rfl
  | cons x t ih => simp [List.set, ih]

theorem getIndex_lt {g : GridOfCards} {row col : Nat} (hr : row < g.rows) (hc : col < g.cols) :
    g.getIndex row col = Except.ok (row * g.cols + col) := by
  unfold GridOfCards.getIndex
  rw [if_neg (by omega), if_neg (by omega)]

theorem place_card_eq_of {g : GridOfCards} {row col idx : Nat} {card : Card}
    (hgi : g.getIndex row col = Except.ok idx)
    (hget : g.cards.getD idx none = none) :
    g.place_card row col card = Except.ok { g with cards := g.cards.set idx (some card) } := by
  unfold GridOfCards.place_card
  split
  · rename_i e heq
    rw [hgi] at heq
    simp at heq
  · rename_i idx2 heq
    rw [hgi] at heq
    obtain rfl : idx2 = idx := by
      injection heq with h1
      exact h1.symm
    split
    · rename_i c2 h3
      rw [hget] at h3
      simp at h3
    · rfl

/-- The placement loop of `place_distributed_cards`, run from a partially
filled row-major grid, fills the remaining cells in order. -/
theorem placeLoop_spec : ∀ (cards pre : List Card) (rows cols : Nat),
    0 < cols → pre.length + cards.length = rows * cols →
    placeLoop ⟨pre.map some ++ List.replicate cards.length none, rows, cols⟩
        cards cols pre.length =
      Except.ok ⟨(pre ++ cards).map some, rows, cols⟩ := by
  intro cards
  induction cards with
  | nil =>
    intro pre rows cols hcols hlen
    simp [placeLoop]
  | cons c rest ih =>
    intro pre rows cols hcols hlen
    have hprelt : pre.length < rows * cols := by
      simp only [List.length_cons] at hlen
      omega
    have hrowlt : pre.length / cols < rows := (Nat.div_lt_iff_lt_mul hcols).mpr hprelt
    have hcollt : pre.length % cols < cols := Nat.mod_lt _ hcols
    have hidxval : pre.length / cols * cols + pre.length % cols = pre.length := by
      calc pre.length / cols * cols + pre.length % cols
          = cols * (pre.length / cols) + pre.length % cols := by rw [Nat.mul_comm]
        _ = pre.length := Nat.div_add_mod _ _
    have hgi : GridOfCards.getIndex
        ⟨pre.map some ++ List.replicate (c :: rest).length none, rows, cols⟩
        (pre.length / cols) (pre.length % cols) = Except.ok pre.length := by
      rw [getIndex_lt hrowlt hcollt]
      show Except.ok (pre.length / cols * cols + pre.length % cols) = Except.ok pre.length
      rw [hidxval]
    have hget : (pre.map some ++ List.replicate (c :: rest).length none).getD
        pre.length none = none := by
      have hl : (pre.map some).length = pre.length := by simp
      rw [← hl, List.getD_append_right _ _ _ _ (le_refl _)]
      simp only [hl, Nat.sub_self]
      rfl
    have hcards : (pre.map some ++ List.replicate (c :: rest).length none).set
        pre.length (some c) = (pre ++ [c]).map some ++ List.replicate rest.length none := by
      have hl : (pre.map some).length = pre.length := by simp
      calc (pre.map some ++ List.replicate (c :: rest).length none).set pre.length (some c)
          = (pre.map some ++ List.replicate (c :: rest).length none).set
              (pre.map some).length (some c) := by rw [hl]
        _ = pre.map some ++ (List.replicate (c :: rest).length none).set 0 (some c) :=
              set_append_length
        _ = pre.map some ++ (some c :: List.replicate rest.length none) := by
              rw [List.length_cons, List.replicate_succ]
              rfl
        _ = (pre ++ [c]).map some ++ List.replicate rest.length none := by
              simp
    have hplace : GridOfCards.place_card
        ⟨pre.map some ++ List.replicate (c :: rest).length none, rows, cols⟩
        (pre.length / cols) (pre.length % cols) c =
        Except.ok ⟨(pre ++ [c]).map some ++ List.replicate rest.length none, rows, cols⟩ := by
      rw [place_card_eq_of hgi hget]
      refine congrArg Except.ok ?_
      simp only [GridOfCards.mk.injEq]
      exact ⟨hcards, trivial, trivial⟩
    unfold placeLoop
    split
    · rename_i e heq
      rw [hplace] at heq
      simp at heq
    · rename_i g1 heq
      rw [hplace] at heq
      obtain rfl : g1 = ⟨(pre ++ [c]).map some ++ List.replicate rest.length none,
          rows, cols⟩ := by
        injection heq with h1
        exact h1.symm
      have hlen1 : (pre ++ [c]).length + rest.length = rows * cols := by
        simp only [List.length_append, List.length_cons, List.length_nil] at hlen ⊢
        omega
      have hres := ih (pre ++ [c]) rows cols hcols hlen1
      have hplen : (pre ++ [c]).length = pre.length + 1 := by simp
      rw [hplen] at hres
      rw [hres]
      simp

/-- `place_distributed_cards` with a hand of matching length always
succeeds, (re)creating the grid with the hand laid row-major — the source
does not check for an existing grid. -/
theorem place_distributed_ok {p : Player} {cards : List Card} {rows cols : Nat}
    (hlen : cards.length = rows * cols) :
    p.place_distributed_cards cards (rows, cols) =
      Except.ok { p with cards := some ⟨cards.map some, rows, cols⟩ } := by
  unfold Player.place_distributed_cards
  dsimp only
  rw [if_neg (by simp [hlen])]
  rcases Nat.eq_zero_or_pos cols with hc0 | hcpos
  · subst hc0
    obtain rfl : cards = [] := by
      apply List.eq_nil_of_length_eq_zero
      omega
    simp [placeLoop, GridOfCards.new]
  · have hspec := placeLoop_spec cards [] rows cols hcpos (by simpa using hlen.symm ▸ hlen)
    have hnew : GridOfCards.new rows cols =
        ⟨([] : List Card).map some ++ List.replicate cards.length none, rows, cols⟩ := by
      simp [GridOfCards.new, hlen]
    split
    · rename_i e heq
      rw [hnew] at heq
      simp only [List.map_nil, List.length_nil] at heq hspec
      rw [hspec] at heq
      simp at heq
    · rename_i g heq
      rw [hnew] at heq
      simp only [List.map_nil, List.length_nil] at heq hspec
      rw [hspec] at heq
      obtain rfl : g = ⟨([] ++ cards).map some, rows, cols⟩ := by
        injection heq with h1
        exact h1.symm
      simp

/-- The dealing `zip` loop: with one matching-length hand per player it
succeeds, giving every player the grid of their hand; each new grid holds
exactly `rows * cols` cards. -/
theorem placeAll_ok {players players1 : List Player} {hands : List (List Card)}
    {rows cols : Nat}
    (hlen : hands.length = players.length)
    (hsh : ∀ hd ∈ hands, hd.length = rows * cols)
    (h : placeAll players hands (rows, cols) = Except.ok players1) :
    players1.length = players.length ∧
      (players1.map Player.cardCount).sum = players.length * (rows * cols) ∧
      ∀ j, j < players.length →
        ∃ p, players.get? j = some p ∧
          players1.get? j = some { p with
            cards := some ⟨(hands.getD j []).map some, rows, cols⟩ } := by
  induction players generalizing hands players1 with
  | nil =>
    simp only [placeAll, Except.ok.injEq] at h
    subst h
    exact ⟨rfl, by simp, by intro j hj; simp at hj⟩
  | cons p ps ih =>
    cases hands with
    | nil => simp at hlen
    | cons hd hs =>
      simp only [placeAll] at h
      split at h
      · rename_i e p1 heq
        rw [place_distributed_ok (hsh hd (by simp))] at heq
        simp at heq
      · rename_i p1 heq
        rw [place_distributed_ok (hsh hd (by simp))] at heq
        obtain rfl : p1 = { p with cards := some ⟨hd.map some, rows, cols⟩ } := by
          injection heq with h1
          exact h1.symm
        split at h
        · simp at h
        · rename_i ps1 heq2
          simp only [Except.ok.injEq] at h
          subst h
          have hlen1 : hs.length = ps.length := by simpa using hlen
          have hsh1 : ∀ hd1 ∈ hs, hd1.length = rows * cols := by
            intro hd1 hmem
            exact hsh hd1 (by simp [hmem])
          obtain ⟨ihlen, ihsum, ihpt⟩ := ih hlen1 hsh1 heq2
          refine ⟨by simp [ihlen], ?_, ?_⟩
          · have hcnt : Player.cardCount { p with cards := some ⟨hd.map some, rows, cols⟩ } =
                rows * cols := by
              simp only [Player.cardCount, GridOfCards.cardCount]
              rw [List.countP_map]
              have : ∀ c : Card, ((fun o => Option.isSome o) ∘ some) c = true := by
                intro c; rfl
              calc (hd.countP ((fun o => Option.isSome o) ∘ some)) = hd.countP (fun _ => true) := by
                    apply List.countP_congr
                    intro c hc
                    simp
                _ = hd.length := by
                    simp [List.countP_true]
                _ = rows * cols := hsh hd (by simp)
            simp only [List.map_cons, List.sum_cons, hcnt, ihsum, List.length_cons]
            ring
          · intro j hj
            cases j with
            | zero =>
              refine ⟨p, by simp, ?_⟩
              simp
            | succ j1 =>
              have hj1 : j1 < ps.length := by simpa using hj
              obtain ⟨q, hq1, hq2⟩ := ihpt j1 hj1
              exact ⟨q, by simpa using hq1, by simpa using hq2⟩

theorem getD_map_const_nil {l : List α} {j : Nat} :
    (l.map (fun _ => ([] : List Card))).getD j [] = [] := by
  induction l generalizing j with
  | nil => rfl
  | cons x t ih =>
    cases j with
    | zero => rfl
    | succ j1 => exact ih

/-- Full characterization of a successful `distribute_cards`: the guards
held, every player ends with their interleaved row-major hand as a grid,
the bottom-most remaining deck card after the deal is flipped face-up
onto the discard pile, the state advances, and cards are conserved. -/
theorem distribute_ok {r r1 : Round} {rows cols : Nat}
    (h : r.distribute_cards (rows, cols) = Except.ok r1) :
    (∀ p ∈ r.players, p.cards = none) ∧
      r.state = RoundState.awaiting_distribution ∧
      r1.state = RoundState.awaiting_two_cards_reveal ∧
      r1.current_player_index = r.current_player_index ∧
      r1.player_who_triggered_last_turn = r.player_who_triggered_last_turn ∧
      r1.starting_player_index = r.starting_player_index ∧
      r.cards_deck.length = r1.cards_deck.length + rows * cols * r.players.length + 1 ∧
      r1.discard_pile = r.discard_pile ++
        [(r.cards_deck.getD r1.cards_deck.length default).flip (some CardState.face_up)] ∧
      r1.players.length = r.players.length ∧
      (∀ j, j < r.players.length →
        ∃ p, r.players.get? j = some p ∧
          r1.players.get? j = some { p with
            cards := some ⟨(dealtHand r.cards_deck r.players.length (rows * cols) j).map some,
              rows, cols⟩ }) ∧
      r1.totalCards = r.totalCards := by
  unfold Round.distribute_cards at h
  dsimp only at h
  split at h
  · simp at h
  · rename_i hguard
    split at h
    · simp at h
    · rename_i hstate
      split at h
      · simp at h
      · rename_i hands deck1 hdl
        split at h
        · simp at h
        · rename_i players2 hpa
          split at h
          · simp at h
          · rename_i card deck2 hpop
            simp only [Except.ok.injEq] at h
            subst h
            have hN : (r.players.map (fun _ => ([] : List Card))).length =
                r.players.length := by simp
            obtain ⟨hhlen, hdeck, htake, hhands⟩ := dealLoop_ok hdl
            rw [hN] at hdeck hhands
            obtain ⟨hd1eq, hd1len⟩ := listPop_eq_some hpop
            have hhandval : ∀ j, j < r.players.length →
                hands.getD j [] = dealtHand r.cards_deck r.players.length (rows * cols) j := by
              intro j hj
              rw [hhands j hj, getD_map_const_nil]
              rfl
            have hsh : ∀ hd ∈ hands, hd.length = rows * cols := by
              intro hd hmem
              obtain ⟨n, hn, hget⟩ := List.getElem_of_mem hmem
              have hn2 : n < r.players.length := by
                rw [hhlen, hN] at hn
                exact hn
              have : hands.getD n [] = hd := by
                rw [List.getD_eq_getElem?_getD, List.getElem?_eq_getElem hn, hget]
                rfl
              rw [← this, hhandval n hn2]
              simp [dealtHand]
            obtain ⟨hplen, hpsum, hppt⟩ :=
              placeAll_ok (by rw [hhlen, hN]) hsh hpa
            have hnone : ∀ p ∈ r.players, p.cards = none := by
              intro p hp
              by_contra hne
              have : p.cards.isSome := Option.ne_none_iff_isSome.mp hne
              exact hguard (List.any_eq_true.mpr ⟨p, hp, this⟩)
            have hstate2 : r.state = RoundState.awaiting_distribution := not_ne_iff.mp hstate
            have hseed : card = r.cards_deck.getD deck2.length default := by
              have hlt : deck2.length < deck1.length := by omega
              have h1 : deck1.getD deck2.length default = card := by
                rw [hd1eq, List.getD_append_right _ _ _ _ (le_refl _), Nat.sub_self]
                rfl
              rw [← h1, htake, List.getD_eq_getElem?_getD,
                List.getElem?_take_of_lt (by omega), ← List.getD_eq_getElem?_getD]
            refine ⟨hnone, hstate2, rfl, rfl, rfl, rfl, ?_, ?_, hplen, ?_, ?_⟩
            · show r.cards_deck.length = deck2.length + rows * cols * r.players.length + 1
              omega
            · simp only
              rw [hseed]
            · intro j hj
              obtain ⟨p, hp1, hp2⟩ := hppt j hj
              refine ⟨p, hp1, ?_⟩
              simp only
              rw [hp2, hhandval j hj]
            · simp only [Round.totalCards]
              have hsum0 : (r.players.map Player.cardCount).sum = 0 := by
                apply List.sum_eq_zero
                intro x hx
                obtain ⟨p, hp, hpx⟩ := List.mem_map.mp hx
                rw [← hpx]
                simp [Player.cardCount, hnone p hp]
              rw [hsum0, hpsum]
              simp only [List.length_append, List.length_cons, List.length_nil]
              have hc : r.players.length * (rows * cols) = rows * cols * r.players.length :=
                Nat.mul_comm _ _
              omega

/-! ## Success (progress) lemmas for distribution -/

theorem dealPass_succeeds : ∀ (hands : List (List Card)) (deck : List Card),
    hands.length ≤ deck.length →
    ∃ hands1 deck1, dealPass deck hands = Except.ok (hands1, deck1) := by
  intro hands
  induction hands with
  | nil => intro deck hle; exact ⟨[], deck, rfl⟩
  | cons hd rest ih =>
    intro deck hle
    have hne : deck ≠ [] := by
      intro hnil
      rw [hnil] at hle
      simp at hle
    cases hpop : listPop deck with
    | none => exact absurd (listPop_eq_none.mp hpop) hne
    | some pr =>
      obtain ⟨card, deckA⟩ := pr
      obtain ⟨-, hlen⟩ := listPop_eq_some hpop
      obtain ⟨rest1, deckB, hrec⟩ := ih deckA (by simp at hle; omega)
      refine ⟨(hd ++ [card]) :: rest1, deckB, ?_⟩
      unfold dealPass
      split
      · rename_i hpop2
        rw [hpop] at hpop2
        simp at hpop2
      · rename_i card2 deckA2 hpop2
        rw [hpop] at hpop2
        obtain ⟨rfl, rfl⟩ : card2 = card ∧ deckA2 = deckA := by
          simp only [Option.some.injEq, Prod.mk.injEq] at hpop2
          exact ⟨hpop2.1.symm, hpop2.2.symm⟩
        split
        · rename_i e hrec2
          rw [hrec] at hrec2
          simp at hrec2
        · rename_i rest2 deckB2 hrec2
          rw [hrec] at hrec2
          obtain ⟨rfl, rfl⟩ : rest2 = rest1 ∧ deckB2 = deckB := by
            simp only [Except.ok.injEq, Prod.mk.injEq] at hrec2
            exact ⟨hrec2.1.symm, hrec2.2.symm⟩
          rfl

theorem dealLoop_succeeds : ∀ (k : Nat) (deck : List Card) (hands : List (List Card)),
    k * hands.length ≤ deck.length →
    ∃ hands1 deck1, dealLoop k deck hands = Except.ok (hands1, deck1) := by
  intro k
  induction k with
  | zero => intro deck hands hle; exact ⟨hands, deck, rfl⟩
  | succ k1 ih =>
    intro deck hands hle
    have hle1 : hands.length ≤ deck.length := by
      have : (k1 + 1) * hands.length = k1 * hands.length + hands.length := by ring
      omega
    obtain ⟨handsA, deckA, hpass⟩ := dealPass_succeeds hands deck hle1
    obtain ⟨hplen, hpdeck, -, -⟩ := dealPass_ok hpass
    obtain ⟨hands1, deck1, hrec⟩ := ih deckA handsA (by
      rw [hplen]
      have : (k1 + 1) * hands.length = k1 * hands.length + hands.length := by ring
      omega)
    refine ⟨hands1, deck1, ?_⟩
    unfold dealLoop
    split
    · rename_i e hpass2
      rw [hpass] at hpass2
      simp at hpass2
    · rename_i handsA2 deckA2 hpass2
      rw [hpass] at hpass2
      obtain ⟨rfl, rfl⟩ : handsA2 = handsA ∧ deckA2 = deckA := by
        simp only [Except.ok.injEq, Prod.mk.injEq] at hpass2
        exact ⟨hpass2.1.symm, hpass2.2.symm⟩
      exact hrec

theorem placeAll_succeeds : ∀ (players : List Player) (hands : List (List Card))
    (rows cols : Nat), (∀ hd ∈ hands, hd.length = rows * cols) →
    ∃ players1, placeAll players hands (rows, cols) = Except.ok players1 := by
  intro players
  induction players with
  | nil =>
    intro hands rows cols hsh
    cases hands with
    | nil => exact ⟨[], rfl⟩
    | cons hd hs => exact ⟨[], rfl⟩
  | cons p ps ih =>
    intro hands rows cols hsh
    cases hands with
    | nil => exact ⟨p :: ps, rfl⟩
    | cons hd hs =>
      obtain ⟨ps1, hrec⟩ := ih hs rows cols (fun hd1 hm => hsh hd1 (by simp [hm]))
      refine ⟨{ p with cards := some ⟨hd.map some, rows, cols⟩ } :: ps1, ?_⟩
      simp only [placeAll]
      rw [place_distributed_ok (hsh hd (by simp)), hrec]

/-- Under the spec's preconditions (fresh round, deck big enough),
`distribute_cards` succeeds. -/
theorem distribute_succeeds {r : Round} {rows cols : Nat}
    (hgrids : ∀ p ∈ r.players, p.cards = none)
    (hstate : r.state = RoundState.awaiting_distribution)
    (hdeck : rows * cols * r.players.length + 1 ≤ r.cards_deck.length) :
    ∃ r1, r.distribute_cards (rows, cols) = Except.ok r1 := by
  unfold Round.distribute_cards
  dsimp only
  rw [if_neg, if_neg]
  · obtain ⟨hands, deck1, hdl⟩ := dealLoop_succeeds (rows * cols) r.cards_deck
      (r.players.map (fun _ => [])) (by
        simp only [List.length_map]
        calc rows * cols * r.players.length ≤ rows * cols * r.players.length + 1 := by omega
          _ ≤ r.cards_deck.length := hdeck)
    obtain ⟨hhlen, hldeck, -, hhands⟩ := dealLoop_ok hdl
    have hN : (r.players.map (fun _ => ([] : List Card))).length = r.players.length := by
      simp
    have hsh : ∀ hd ∈ hands, hd.length = rows * cols := by
      intro hd hmem
      obtain ⟨n, hn, hget⟩ := List.getElem_of_mem hmem
      have hn2 : n < (r.players.map (fun _ => ([] : List Card))).length := by
        rw [← hhlen]
        exact hn
      have hgd : hands.getD n [] = hd := by
        rw [List.getD_eq_getElem?_getD, List.getElem?_eq_getElem hn, hget]
        rfl
      rw [← hgd, hhands n hn2, getD_map_const_nil]
      simp
    obtain ⟨players1, hpa⟩ := placeAll_succeeds r.players hands rows cols hsh
    have hd1ne : deck1 ≠ [] := by
      intro hnil
      rw [hN] at hldeck
      rw [hnil] at hldeck
      simp at hldeck
      omega
    cases hpop : listPop deck1 with
    | none => exact absurd (listPop_eq_none.mp hpop) hd1ne
    | some pr =>
      obtain ⟨card, deck2⟩ := pr
      rw [hdl]
      simp only
      rw [hpa]
      simp only
      rw [hpop]
      exact ⟨_, rfl⟩
  · rw [hstate]
    simp
  · simp only [List.any_eq_true, not_exists]
    intro p
    rintro ⟨hp, hsome⟩
    rw [hgrids p hp] at hsome
    simp at hsome

/-! ## Frame lemmas for `make_current_player_play` -/

theorem map_set_eq {l : List α} {n : Nat} {a : α} (f : α → β) :
    (l.set n a).map f = (l.map f).set n (f a) := by
  induction l generalizing n with
  | nil => rfl
  | cons x t ih =>
    cases n with
    | zero => rfl
    | succ m => simp [List.set, ih]

/-- A successful `Player.play_card` keeps the name and strategy and
leaves a grid in place. -/
theorem play_card_ok_name {p p1 : Player} {drawn : Card} {a : PlayerPlayAction}
    {cards : List Card} (h : p.play_card drawn a = Except.ok (cards, p1)) :
    p1.name = p.name ∧ p1.strategy = p.strategy ∧ ∃ g1, p1.cards = some g1 := by
  unfold Player.play_card at h
  split at h
  · simp at h
  · rename_i g hg
    split at h
    · simp at h
    · split at h
      · simp at h
      · simp only [Except.ok.injEq, Prod.mk.injEq] at h
        obtain ⟨-, rfl⟩ := h
        exact ⟨rfl, rfl, _, rfl⟩
      · split at h
        · simp at h
        · simp only [Except.ok.injEq, Prod.mk.injEq] at h
          obtain ⟨-, rfl⟩ := h
          exact ⟨rfl, rfl, _, rfl⟩

/-- A failing `Player.play_card` keeps the name and strategy. -/
theorem play_card_error_name {p p1 : Player} {drawn : Card} {a : PlayerPlayAction}
    {e : Err} (h : p.play_card drawn a = Except.error (e, p1)) :
    p1.name = p.name ∧ p1.strategy = p.strategy := by
  unfold Player.play_card at h
  split at h
  · simp only [Except.error.injEq, Prod.mk.injEq] at h
    obtain ⟨-, rfl⟩ := h
    exact ⟨rfl, rfl⟩
  · rename_i g hg
    split at h
    · simp only [Except.error.injEq, Prod.mk.injEq] at h
      obtain ⟨-, rfl⟩ := h
      exact ⟨rfl, rfl⟩
    · split at h
      · simp only [Except.error.injEq, Prod.mk.injEq] at h
        obtain ⟨-, rfl⟩ := h
        exact ⟨rfl, rfl⟩
      · simp at h
      · split at h
        · simp only [Except.error.injEq, Prod.mk.injEq] at h
          obtain ⟨-, rfl⟩ := h
          exact ⟨rfl, rfl⟩
        · simp at h

/-- Setting the current player back to a same-named player preserves the
name list; other indices are untouched. -/
theorem players_set_frame {players : List Player} {idx : Nat} {cp p1 : Player}
    (hget : players.get? idx = some cp)
    (hname : p1.name = cp.name) :
    (players.set idx p1).map Player.name = players.map Player.name ∧
      ∀ j, j ≠ idx → (players.set idx p1).get? j = players.get? j := by
  constructor
  · rw [map_set_eq, hname]
    apply list_set_self
    have hm : (players.map Player.name).get? idx = (players.get? idx).map Player.name := by
      rw [List.get?_eq_getElem?, List.get?_eq_getElem?, List.getElem?_map]
    rw [hm, hget]
    rfl
  · intro j hj
    rw [List.get?_set_ne _ _ (fun hh => hj hh.symm)]

/-- What a successful `finishPlay` does: write back the player, extend
the discard pile in order, keep deck and cursor, and either keep
state/trigger or perform the transition into `LAST_TURN` (recording the
cursor) justified by the player being fully revealed. -/
theorem finishPlay_ok {r1 r2 : Round} {cards : List Card} {p1 : Player} {s : RoundState}
    (h : r1.finishPlay cards p1 = Except.ok (s, r2)) :
    s = r2.state ∧
      r2.players = r1.players.set r1.current_player_index p1 ∧
      r2.discard_pile = r1.discard_pile ++ cards ∧
      r2.cards_deck = r1.cards_deck ∧
      r2.current_player_index = r1.current_player_index ∧
      ((r2.state = r1.state ∧
          r2.player_who_triggered_last_turn = r1.player_who_triggered_last_turn) ∨
        (r1.state ≠ RoundState.last_turn ∧
          r2.state = RoundState.last_turn ∧
          r2.player_who_triggered_last_turn = some r1.current_player_index ∧
          ∃ g1, p1.cards = some g1 ∧ g1.all_cards_revealed = true)) := by
  unfold Round.finishPlay at h
  split at h
  · simp at h
  · rename_i all_rev hrev
    split at h
    · rename_i hcond
      obtain ⟨hrevtrue, hnotlast⟩ := hcond
      simp only [Except.ok.injEq, Prod.mk.injEq] at h
      obtain ⟨rfl, rfl⟩ := h
      refine ⟨rfl, rfl, rfl, rfl, rfl, Or.inr ⟨?_, rfl, rfl, ?_⟩⟩
      · exact hnotlast
      · subst hrevtrue
        unfold Player.all_cards_revealed at hrev
        split at hrev
        · simp at hrev
        · rename_i g hgm
          simp only [Except.ok.injEq] at hrev
          exact ⟨g, hgm, hrev⟩
    · simp only [Except.ok.injEq, Prod.mk.injEq] at h
      obtain ⟨rfl, rfl⟩ := h
      exact ⟨rfl, rfl, rfl, rfl, rfl, Or.inl ⟨rfl, rfl⟩⟩

/-- A failing `finishPlay` (the unreachable `all_cards_revealed` error)
still only writes back the player and extends the discard pile. -/
theorem finishPlay_error {r1 r2 : Round} {cards : List Card} {p1 : Player} {e : Err}
    (h : r1.finishPlay cards p1 = Except.error (e, r2)) :
    r2.players = r1.players.set r1.current_player_index p1 ∧
      r2.discard_pile = r1.discard_pile ++ cards ∧
      r2.cards_deck = r1.cards_deck ∧
      r2.current_player_index = r1.current_player_index ∧
      r2.state = r1.state ∧
      r2.player_who_triggered_last_turn = r1.player_who_triggered_last_turn := by
  unfold Round.finishPlay at h
  split at h
  · simp only [Except.error.injEq, Prod.mk.injEq] at h
    obtain ⟨-, rfl⟩ := h
    exact ⟨rfl, rfl, rfl, rfl, rfl, rfl⟩
  · split at h
    · simp at h
    · simp at h

/-- Any failing `make_current_player_play` leaves the state tag, the
cursor, the trigger record and the player names (and all non-current
players) unchanged. -/
theorem make_play_error_shape {r r2 : Round} {e : Err}
    (h : r.make_current_player_play = Except.error (e, r2)) :
    r2.current_player_index = r.current_player_index ∧
      r2.state = r.state ∧
      r2.player_who_triggered_last_turn = r.player_who_triggered_last_turn ∧
      r2.players.map Player.name = r.players.map Player.name ∧
      (∀ j, j ≠ r.current_player_index → r2.players.get? j = r.players.get? j) := by
  unfold Round.make_current_player_play at h
  split at h
  · simp only [Except.error.injEq, Prod.mk.injEq] at h
    obtain ⟨-, rfl⟩ := h
    exact ⟨rfl, rfl, rfl, rfl, fun j hj => rfl⟩
  · split at h
    · simp only [Except.error.injEq, Prod.mk.injEq] at h
      obtain ⟨-, rfl⟩ := h
      exact ⟨rfl, rfl, rfl, rfl, fun j hj => rfl⟩
    · rename_i cp hcp
      split at h
      · rename_i e1 heq
        simp only [Except.error.injEq] at h
        obtain rfl : e1 = (e, r2) := h
        obtain ⟨rfl, -, -⟩ := drawPhase_error heq
        exact ⟨rfl, rfl, rfl, rfl, fun j hj => rfl⟩
      · rename_i drawn r1 hdraw
        obtain ⟨hpl, hst, hidx, htrig, -, -⟩ := drawPhase_ok hdraw
        have hget1 : r1.players.get? r1.current_player_index = some cp := by
          rw [hpl, hidx]
          exact hcp
        split at h
        · rename_i e2 p1 hplay
          simp only [Except.error.injEq, Prod.mk.injEq] at h
          obtain ⟨-, rfl⟩ := h
          have hname : p1.name = cp.name := (play_card_error_name hplay).1
          obtain ⟨hmap, hother⟩ := players_set_frame hget1 hname
          refine ⟨hidx, hst, htrig, ?_, ?_⟩
          · show (r1.players.set r1.current_player_index p1).map Player.name =
              r.players.map Player.name
            rw [hmap, hpl]
          · intro j hj
            show (r1.players.set r1.current_player_index p1).get? j = r.players.get? j
            rw [hother j (by rw [hidx]; exact hj), hpl]
        · rename_i cards p1 hplay
          obtain ⟨hfp, hfd, hfdk, hfi, hfs, hft⟩ := finishPlay_error h
          have hname : p1.name = cp.name := (play_card_ok_name hplay).1
          obtain ⟨hmap, hother⟩ := players_set_frame hget1 hname
          refine ⟨by rw [hfi, hidx], by rw [hfs, hst], by rw [hft, htrig], ?_, ?_⟩
          · rw [hfp, hmap, hpl]
          · intro j hj
            rw [hfp, hother j (by rw [hidx]; exact hj), hpl]

/-- A successful `make_current_player_play` leaves the cursor and the
player names (and all non-current players) unchanged, and either leaves
the state and trigger unchanged or performs the unique transition into
`LAST_TURN`, recording the current player, who is then fully revealed. -/
theorem make_play_ok_shape {r r2 : Round} {s : RoundState}
    (h : r.make_current_player_play = Except.ok (s, r2)) :
    s = r2.state ∧
      r2.current_player_index = r.current_player_index ∧
      r2.players.map Player.name = r.players.map Player.name ∧
      (∀ j, j ≠ r.current_player_index → r2.players.get? j = r.players.get? j) ∧
      ((r2.state = r.state ∧
          r2.player_who_triggered_last_turn = r.player_who_triggered_last_turn) ∨
        (r.state ≠ RoundState.last_turn ∧
          r2.state = RoundState.last_turn ∧
          r2.player_who_triggered_last_turn = some r.current_player_index ∧
          r2.playerAllRevealed r.current_player_index = true)) := by
  unfold Round.make_current_player_play at h
  split at h
  · simp at h
  · split at h
    · simp at h
    · rename_i cp hcp
      split at h
      · simp at h
      · rename_i drawn r1 hdraw
        obtain ⟨hpl, hst, hidx, htrig, -, -⟩ := drawPhase_ok hdraw
        have hget1 : r1.players.get? r1.current_player_index = some cp := by
          rw [hpl, hidx]
          exact hcp
        have hidxlt : r1.current_player_index < r1.players.length := by
          by_contra hge
          rw [List.get?_eq_getElem?, List.getElem?_eq_none (by omega)] at hget1
          simp at hget1
        split at h
        · simp at h
        · rename_i cards p1 hplay
          have hname : p1.name = cp.name := (play_card_ok_name hplay).1
          obtain ⟨hmap, hother⟩ := players_set_frame hget1 hname
          obtain ⟨hseq, hfp, hfd, hfdk, hfi, hdisj⟩ := finishPlay_ok h
          refine ⟨hseq, by rw [hfi, hidx], ?_, ?_, ?_⟩
          · rw [hfp, hmap, hpl]
          · intro j hj
            rw [hfp, hother j (by rw [hidx]; exact hj), hpl]
          · rcases hdisj with ⟨h1, h2⟩ | ⟨h1, h2, h3, g1, hg1, hrev⟩
            · exact Or.inl ⟨by rw [h1, hst], by rw [h2, htrig]⟩
            · refine Or.inr ⟨by rw [← hst]; exact h1, h2, by rw [h3, hidx], ?_⟩
              unfold Round.playerAllRevealed
              have hgr2 : r2.players.get? r.current_player_index = some p1 := by
                rw [hfp, ← hidx]
                exact List.get?_set_eq_of_lt _ hidxlt
              rw [hgr2]
              show (match p1.cards with
                | none => false
                | some g => g.all_cards_revealed) = true
              rw [hg1]
              exact hrev

/-! ## Column-completion characterization -/

theorem colCompleted_iff {g : GridOfCards} {c : Nat} :
    g.colCompleted c = true ↔
      ∀ row, row < g.rows → ∃ card, g.cell row c = some card ∧
        card.state = CardState.face_up := by
  unfold GridOfCards.colCompleted
  split
  · rename_i hany
    simp only [List.any_eq_true, List.mem_map, List.mem_range] at hany
    obtain ⟨x, ⟨row, hrow, hx⟩, hnone⟩ := hany
    constructor
    · intro hfalse
      cases hfalse
    · intro hall
      exfalso
      obtain ⟨card, hcard, -⟩ := hall row hrow
      unfold GridOfCards.cell at hcard
      rw [hcard] at hx
      rw [← hx] at hnone
      simp at hnone
  · rename_i hany
    simp only [List.any_eq_true, List.mem_map, List.mem_range, not_exists] at hany
    rw [List.all_eq_true]
    constructor
    · intro hall row hrow
      have hmem : g.cards.getD (row * g.cols + c) none ∈
          (List.range g.rows).map (fun row => g.cards.getD (row * g.cols + c) none) :=
        List.mem_map_of_mem _ (List.mem_range.mpr hrow)
      have hthis := hall _ hmem
      cases hcell : g.cards.getD (row * g.cols + c) none with
      | none =>
        exfalso
        apply hany none
        constructor
        · exact ⟨row, hrow, hcell⟩
        · rfl
      | some card =>
        refine ⟨card, hcell, ?_⟩
        rw [hcell] at hthis
        simpa using hthis
    · intro hcond x hx
      obtain ⟨row, hrow, hfx⟩ := List.mem_map.mp hx
      rw [List.mem_range] at hrow
      obtain ⟨card, hcard, hface⟩ := hcond row hrow
      unfold GridOfCards.cell at hcard
      rw [← hfx, hcard]
      simp [hface]

theorem mem_completedCols {g : GridOfCards} {c : Nat} :
    c ∈ (List.range g.cols).filter (fun col => g.colCompleted col) ↔
      completedColumn g c := by
  rw [List.mem_filter, List.mem_range]
  unfold completedColumn
  rw [colCompleted_iff]

theorem completedCols_nodup (g : GridOfCards) :
    ((List.range g.cols).filter (fun col => g.colCompleted col)).Nodup :=
  (List.nodup_range _).filter _

theorem identify_eq_none {g : GridOfCards}
    (h : (List.range g.cols).filter (fun col => g.colCompleted col) = []) :
    g.identify_any_complete_column = Except.ok none := by
  unfold GridOfCards.identify_any_complete_column
  rw [h]

theorem identify_eq_single {g : GridOfCards} {c : Nat}
    (h : (List.range g.cols).filter (fun col => g.colCompleted col) = [c]) :
    g.identify_any_complete_column = Except.ok (some c) := by
  unfold GridOfCards.identify_any_complete_column
  rw [h]

theorem identify_eq_multi {g : GridOfCards} {c1 c2 : Nat} {t : List Nat}
    (h : (List.range g.cols).filter (fun col => g.colCompleted col) = c1 :: c2 :: t) :
    g.identify_any_complete_column =
      Except.error (Err.impossibleGameStateError "Multiple complete revealed columns found") := by
  unfold GridOfCards.identify_any_complete_column
  rw [h]

/-- C5 — `identify_any_complete_column` is purely a visibility test:
`ok (some c)` exactly when `c` is the unique all-present all-face-up
column, `ok none` exactly when there is no such column, and an
`ImpossibleGameStateError` ("MultipleCompletedColumns") exactly when two
distinct columns qualify simultaneously. -/
theorem c5_find_completed_column_visibility (g : GridOfCards) :
    (∀ c, g.identify_any_complete_column = Except.ok (some c) ↔
      (completedColumn g c ∧ ∀ c2, completedColumn g c2 → c2 = c)) ∧
    (g.identify_any_complete_column = Except.ok none ↔ ∀ c, ¬completedColumn g c) ∧
    (∀ e, g.identify_any_complete_column = Except.error e ↔
      (e = Err.impossibleGameStateError "Multiple complete revealed columns found" ∧
        ∃ c1 c2, c1 ≠ c2 ∧ completedColumn g c1 ∧ completedColumn g c2)) := by
  have hnd := completedCols_nodup g
  refine ⟨?_, ?_, ?_⟩
  · intro c
    constructor
    · intro h
      cases hqs : (List.range g.cols).filter (fun col => g.colCompleted col) with
      | nil =>
        rw [identify_eq_none hqs] at h
        simp at h
      | cons a t =>
        cases t with
        | nil =>
          rw [identify_eq_single hqs] at h
          simp only [Except.ok.injEq, Option.some.injEq] at h
          subst h
          constructor
          · exact mem_completedCols.mp (by rw [hqs]; exact List.mem_singleton_self a)
          · intro c2 hc2
            have := mem_completedCols.mpr hc2
            rw [hqs] at this
            simpa using this
        | cons b t2 =>
          rw [identify_eq_multi hqs] at h
          simp at h
    · rintro ⟨hc, huniq⟩
      cases hqs : (List.range g.cols).filter (fun col => g.colCompleted col) with
      | nil =>
        exfalso
        have hmem := mem_completedCols.mpr hc
        rw [hqs] at hmem
        simp at hmem
      | cons a t =>
        have hmema : completedColumn g a := mem_completedCols.mp (by rw [hqs]; simp)
        have hac : a = c := huniq a hmema
        cases t with
        | nil =>
          subst hac
          exact identify_eq_single hqs
        | cons b t2 =>
          exfalso
          have hmemb : completedColumn g b := mem_completedCols.mp (by rw [hqs]; simp)
          have hbc : b = c := huniq b hmemb
          rw [hqs] at hnd
          rw [List.nodup_cons] at hnd
          exact hnd.1 (by simp [hac, hbc.symm])
  · constructor
    · intro h c hc
      have hmem := mem_completedCols.mpr hc
      cases hqs : (List.range g.cols).filter (fun col => g.colCompleted col) with
      | nil =>
        rw [hqs] at hmem
        simp at hmem
      | cons a t =>
        cases t with
        | nil =>
          rw [identify_eq_single hqs] at h
          simp at h
        | cons b t2 =>
          rw [identify_eq_multi hqs] at h
          simp at h
    · intro hnone
      apply identify_eq_none
      rw [List.filter_eq_nil_iff]
      intro a ha hp
      exact hnone a (mem_completedCols.mp (List.mem_filter.mpr ⟨ha, hp⟩))
  · intro e
    constructor
    · intro h
      cases hqs : (List.range g.cols).filter (fun col => g.colCompleted col) with
      | nil =>
        rw [identify_eq_none hqs] at h
        simp at h
      | cons a t =>
        cases t with
        | nil =>
          rw [identify_eq_single hqs] at h
          simp at h
        | cons b t2 =>
          rw [identify_eq_multi hqs] at h
          simp only [Except.error.injEq] at h
          refine ⟨h.symm, a, b, ?_, ?_, ?_⟩
          · rw [hqs, List.nodup_cons] at hnd
            intro hab
            exact hnd.1 (by simp [hab])
          · exact mem_completedCols.mp (by rw [hqs]; simp)
          · exact mem_completedCols.mp (by rw [hqs]; simp)
    · rintro ⟨rfl, c1, c2, hne, h1, h2⟩
      have hm1 := mem_completedCols.mpr h1
      have hm2 := mem_completedCols.mpr h2
      cases hqs : (List.range g.cols).filter (fun col => g.colCompleted col) with
      | nil =>
        rw [hqs] at hm1
        simp at hm1
      | cons a t =>
        cases t with
        | nil =>
          rw [hqs] at hm1 hm2
          simp only [List.mem_singleton] at hm1 hm2
          exact absurd (hm1.trans hm2.symm) hne
        | cons b t2 => exact identify_eq_multi hqs

/-! ## Claim C2: interleaved, row-major dealing -/

theorem getD_map_some {l : List Card} {i : Nat} (h : i < l.length) :
    (l.map some).getD i none = some (l.getD i default) := by
  rw [List.getD_eq_getElem?_getD, List.getD_eq_getElem?_getD,
    List.getElem?_eq_getElem (by simpa using h), List.getElem?_eq_getElem h]
  simp

theorem getD_range_map {f : Nat → Card} {k i : Nat} (h : i < k) :
    ((List.range k).map f).getD i default = f i := by
  rw [List.getD_eq_getElem?_getD, List.getElem?_eq_getElem (by simpa using h)]
  simp

/-- C2 — dealing order of `distribute_cards`: a successful
`distribute_cards (rows, cols)` deals interleaved (one card popped from
the deck top per player per pass, `rows*cols` passes) and lays each hand
row-major, so player `j`'s grid cell `(rr, cc)` holds the card that was
at deck index `|D| - 1 - ((rr*cols + cc)*N + j)` before the call. -/
theorem c2_distribute_interleaved_rowmajor {r r1 : Round} {rows cols j rr cc : Nat}
    (h : r.distribute_cards (rows, cols) = Except.ok r1)
    (hj : j < r.players.length) (hrr : rr < rows) (hcc : cc < cols) :
    r1.playerGridCell j rr cc =
      some (r.cards_deck.getD
        (r.cards_deck.length - 1 - ((rr * cols + cc) * r.players.length + j)) default) := by
  obtain ⟨-, -, -, -, -, -, -, -, -, hpt, -⟩ := distribute_ok h
  obtain ⟨p, hp1, hp2⟩ := hpt j hj
  unfold Round.playerGridCell
  rw [hp2]
  show GridOfCards.cell ⟨(dealtHand r.cards_deck r.players.length (rows * cols) j).map some,
    rows, cols⟩ rr cc = _
  unfold GridOfCards.cell
  have hidx : rr * cols + cc < rows * cols := by
    have h1 : rr * cols + cc < rr * cols + cols := by omega
    have h2 : rr * cols + cols = (rr + 1) * cols := by ring
    have h3 : (rr + 1) * cols ≤ rows * cols := Nat.mul_le_mul_right _ (by omega)
    omega
  have hlen : (dealtHand r.cards_deck r.players.length (rows * cols) j).length =
      rows * cols := by
    simp [dealtHand]
  rw [getD_map_some (by rw [hlen]; exact hidx)]
  unfold dealtHand
  rw [getD_range_map hidx]

/-! ## Claim C6: distribute postcondition and double-call guard -/

/-- With a grid already dealt to some player, `distribute_cards` fails
with the `AlreadyDistributed` error (`ValueError` in the source), leaving
the round untouched. -/
theorem distribute_already {r : Round} {cfg : Nat × Nat}
    (h : r.players.any (fun p => p.cards.isSome) = true) :
    r.distribute_cards cfg =
      Except.error (Err.valueError "Cards have already been distributed to players.", r) := by
  unfold Round.distribute_cards
  dsimp only
  rw [if_pos h]

theorem flip_some_state (c : Card) (s : CardState) : (c.flip (some s)).state = s := rfl

/-- C6 — postcondition and guard of `distribute_cards`: on a fresh round
of `N ≥ 1` players whose face-down deck holds at least `12N + 1` cards
and whose discard pile is empty, `distribute_cards (3,4)` succeeds,
leaves every player with a fully populated 3×4 face-down grid, puts
exactly one face-up card on the discard pile, moves the state to
`AWAITING_TWO_CARDS_REVEAL`, and a second call fails with the
`AlreadyDistributed` error. -/
theorem c6_distribute_postcondition {r : Round}
    (hplayers : 0 < r.players.length)
    (hgrids : ∀ p ∈ r.players, p.cards = none)
    (hstate : r.state = RoundState.awaiting_distribution)
    (hdiscard : r.discard_pile = [])
    (hfacedown : ∀ card ∈ r.cards_deck, card.state = CardState.face_down)
    (hdeck : 3 * 4 * r.players.length + 1 ≤ r.cards_deck.length) :
    r.distribute_cards (3, 4) = Except.ok (r.runOp (EngineOp.distribute (3, 4))) ∧
      (∀ p ∈ (r.runOp (EngineOp.distribute (3, 4))).players, p.fullyDealtFaceDown = true) ∧
      (r.runOp (EngineOp.distribute (3, 4))).discard_pile.length = 1 ∧
      (∀ card ∈ (r.runOp (EngineOp.distribute (3, 4))).discard_pile,
        card.state = CardState.face_up) ∧
      (r.runOp (EngineOp.distribute (3, 4))).state = RoundState.awaiting_two_cards_reveal ∧
      (r.runOp (EngineOp.distribute (3, 4))).distribute_cards (3, 4) =
        Except.error (Err.valueError "Cards have already been distributed to players.",
          r.runOp (EngineOp.distribute (3, 4))) := by
  obtain ⟨r1, hok⟩ := distribute_succeeds hgrids hstate hdeck
  have hrun : r.runOp (EngineOp.distribute (3, 4)) = r1 := by
    show (match r.distribute_cards (3, 4) with
      | Except.ok r2 => r2
      | Except.error (_, r2) => r2) = r1
    rw [hok]
  rw [hrun, hok]
  obtain ⟨-, -, hst1, -, -, -, hdlen, hdisc, hplen, hpt, -⟩ := distribute_ok hok
  have hdeckpos : 0 < r.cards_deck.length := by omega
  refine ⟨rfl, ?_, ?_, ?_, hst1, ?_⟩
  · intro p hp
    obtain ⟨n, hn, hget⟩ := List.getElem_of_mem hp
    have hn2 : n < r.players.length := by
      rw [hplen] at hn
      exact hn
    obtain ⟨q, hq1, hq2⟩ := hpt n hn2
    have hpeq : p = { q with cards := some ⟨(dealtHand r.cards_deck r.players.length
        (3 * 4) n).map some, 3, 4⟩ } := by
      rw [List.get?_eq_getElem?, List.getElem?_eq_getElem hn, hget] at hq2
      simpa using hq2
    subst hpeq
    unfold Player.fullyDealtFaceDown
    simp only
    have hlen12 : (dealtHand r.cards_deck r.players.length (3 * 4) n).length = 12 := by
      simp [dealtHand]
    rw [Bool.and_eq_true, Bool.and_eq_true, Bool.and_eq_true]
    refine ⟨⟨⟨by simp, by simp⟩, by simp [hlen12]⟩, ?_⟩
    rw [List.all_eq_true]
    intro x hx
    obtain ⟨card, hcmem, hcx⟩ := List.mem_map.mp hx
    unfold dealtHand at hcmem
    obtain ⟨m, hm, hfm⟩ := List.mem_map.mp hcmem
    have hidxlt : r.cards_deck.length - 1 - (m * r.players.length + n) <
        r.cards_deck.length := by omega
    have hcardmem : card ∈ r.cards_deck := by
      rw [← hfm, List.getD_eq_getElem?_getD, List.getElem?_eq_getElem hidxlt]
      exact List.getElem_mem _
    rw [← hcx]
    simp [hfacedown card hcardmem]
  · rw [hdisc, hdiscard]
    rfl
  · intro card hcard
    rw [hdisc, hdiscard] at hcard
    simp only [List.nil_append, List.mem_singleton] at hcard
    rw [hcard]
    rfl
  · apply distribute_already
    rw [List.any_eq_true]
    obtain ⟨q, hq1, hq2⟩ := hpt 0 hplayers
    refine ⟨_, List.get?_mem hq2, ?_⟩
    rfl

/-! ## Claim C3: the LAST_TURN transition fires at most once -/

/-- In any state other than `AWAITING_DISTRIBUTION`, `distribute_cards`
fails in a guard, leaving the round untouched. -/
theorem distribute_wrong_state {r : Round} {cfg : Nat × Nat}
    (hstate : r.state ≠ RoundState.awaiting_distribution) :
    r.runOp (EngineOp.distribute cfg) = r := by
  show (match r.distribute_cards cfg with
    | Except.ok r2 => r2
    | Except.error (_, r2) => r2) = r
  by_cases hany : r.players.any (fun p => p.cards.isSome) = true
  · rw [distribute_already hany]
  · have herr : r.distribute_cards cfg = Except.error
        (Err.impossibleGameStateError "Cannot distribute cards when round has already started.",
          r) := by
      unfold Round.distribute_cards
      dsimp only
      rw [if_neg hany, if_pos hstate]
    rw [herr]

/-- In any state other than `AWAITING_TWO_CARDS_REVEAL`,
`make_player_reveal_two_cards` fails in its guard, leaving the round
untouched. -/
theorem revealTwo_wrong_state {r : Round}
    (hstate : r.state ≠ RoundState.awaiting_two_cards_reveal) :
    r.runOp EngineOp.revealTwo = r := by
  show (match r.make_player_reveal_two_cards with
    | Except.ok r2 => r2
    | Except.error (_, r2) => r2) = r
  have herr : r.make_player_reveal_two_cards = Except.error
      (Err.impossibleGameStateError "Cannot reveal two cards when round has already started.",
        r) := by
    unfold Round.make_player_reveal_two_cards
    rw [if_pos hstate]
  rw [herr]

/-- One engine `play` step, expressed through `runOp`, equals the round
component of the `make_current_player_play` result. -/
theorem runOp_play_error {r r2 : Round} {e : Err}
    (h : r.make_current_player_play = Except.error (e, r2)) :
    r.runOp EngineOp.play = r2 := by
  show (match r.make_current_player_play with
    | Except.ok (_, rx) => rx
    | Except.error (_, rx) => rx) = r2
  rw [h]

theorem runOp_play_ok {r r2 : Round} {s : RoundState}
    (h : r.make_current_player_play = Except.ok (s, r2)) :
    r.runOp EngineOp.play = r2 := by
  show (match r.make_current_player_play with
    | Except.ok (_, rx) => rx
    | Except.error (_, rx) => rx) = r2
  rw [h]

/-- C3 — the last-turn trigger fires at most once and is frozen: once the
round is in `LAST_TURN`, every engine operation (and hence every
sequence of operations) keeps the state and the recorded trigger
unchanged; a successful play from outside `LAST_TURN` sets the trigger to
the current player's index exactly when it transitions (which requires
that player to be fully revealed) and leaves it unchanged otherwise; a
failing play never changes either. -/
theorem c3_last_turn_trigger_once :
    (∀ (r : Round) (op : EngineOp), r.state = RoundState.last_turn →
      (r.runOp op).state = RoundState.last_turn ∧
      (r.runOp op).player_who_triggered_last_turn = r.player_who_triggered_last_turn) ∧
    (∀ (r : Round) (ops : List EngineOp), r.state = RoundState.last_turn →
      (r.runOps ops).state = RoundState.last_turn ∧
      (r.runOps ops).player_who_triggered_last_turn = r.player_who_triggered_last_turn) ∧
    (∀ (r r2 : Round) (s : RoundState), r.state ≠ RoundState.last_turn →
      r.make_current_player_play = Except.ok (s, r2) →
      (r2.state = RoundState.last_turn →
        r2.player_who_triggered_last_turn = some r.current_player_index ∧
        r2.playerAllRevealed r.current_player_index = true) ∧
      (r2.state ≠ RoundState.last_turn →
        r2.player_who_triggered_last_turn = r.player_who_triggered_last_turn)) ∧
    (∀ (r r2 : Round) (e : Err), r.make_current_player_play = Except.error (e, r2) →
      r2.state = r.state ∧
      r2.player_who_triggered_last_turn = r.player_who_triggered_last_turn) := by
  have hop : ∀ (r : Round) (op : EngineOp), r.state = RoundState.last_turn →
      (r.runOp op).state = RoundState.last_turn ∧
      (r.runOp op).player_who_triggered_last_turn = r.player_who_triggered_last_turn := by
    intro r op h
    cases op with
    | distribute cfg =>
      rw [distribute_wrong_state (by rw [h]; intro hh; cases hh)]
      exact ⟨h, rfl⟩
    | revealTwo =>
      rw [revealTwo_wrong_state (by rw [h]; intro hh; cases hh)]
      exact ⟨h, rfl⟩
    | next => exact ⟨h, rfl⟩
    | play =>
      cases hres : r.make_current_player_play with
      | ok pr =>
        obtain ⟨s, r2⟩ := pr
        rw [runOp_play_ok hres]
        obtain ⟨-, -, -, -, hdisj⟩ := make_play_ok_shape hres
        rcases hdisj with ⟨h1, h2⟩ | ⟨h1, -, -, -⟩
        · exact ⟨by rw [h1, h], h2⟩
        · exact absurd h h1
      | error pr =>
        obtain ⟨e, r2⟩ := pr
        rw [runOp_play_error hres]
        obtain ⟨-, hst, htr, -, -⟩ := make_play_error_shape hres
        exact ⟨by rw [hst, h], htr⟩
  refine ⟨hop, ?_, ?_, ?_⟩
  · intro r ops
    induction ops generalizing r with
    | nil => intro h; exact ⟨h, rfl⟩
    | cons op rest ih =>
      intro h
      show ((r.runOp op).runOps rest).state = RoundState.last_turn ∧
        ((r.runOp op).runOps rest).player_who_triggered_last_turn =
          r.player_who_triggered_last_turn
      obtain ⟨h1, h2⟩ := hop r op h
      obtain ⟨h3, h4⟩ := ih (r.runOp op) h1
      exact ⟨h3, by rw [h4, h2]⟩
  · intro r r2 s hne hok
    obtain ⟨-, -, -, -, hdisj⟩ := make_play_ok_shape hok
    rcases hdisj with ⟨h1, h2⟩ | ⟨h1, h2, h3, h4⟩
    · refine ⟨?_, ?_⟩
      · intro hlast
        rw [h1] at hlast
        exact absurd hlast hne
      · intro hx
        exact h2
    · refine ⟨?_, ?_⟩
      · intro hx
        exact ⟨h3, h4⟩
      · intro hnot
        exact absurd h2 hnot
  · intro r r2 e herr
    obtain ⟨-, hst, htr, -, -⟩ := make_play_error_shape herr
    exact ⟨hst, htr⟩

/-! ## Claim C9: the play step never advances the cursor -/

/-- C9 — turn resolution never advances the cursor: whatever
`make_current_player_play` does (success or failure), the current-player
index, the order of the player list (witnessed by the name sequence) and
every non-current player are unchanged; the cursor moves only through
`next_player`, which sets it to `(index + 1) mod N` and touches nothing
else. -/
theorem c9_turn_does_not_advance_cursor :
    (∀ r : Round,
      (r.runOp EngineOp.play).current_player_index = r.current_player_index ∧
      (r.runOp EngineOp.play).players.map Player.name = r.players.map Player.name ∧
      (∀ j, j ≠ r.current_player_index →
        (r.runOp EngineOp.play).players.get? j = r.players.get? j)) ∧
    (∀ r : Round, 0 < r.players.length →
      r.next_player.current_player_index = (r.current_player_index + 1) % r.players.length ∧
      r.next_player.players = r.players ∧
      r.next_player.cards_deck = r.cards_deck ∧
      r.next_player.discard_pile = r.discard_pile ∧
      r.next_player.state = r.state ∧
      r.next_player.player_who_triggered_last_turn = r.player_who_triggered_last_turn) := by
  constructor
  · intro r
    cases hres : r.make_current_player_play with
    | ok pr =>
      obtain ⟨s, r2⟩ := pr
      rw [runOp_play_ok hres]
      obtain ⟨-, hidx, hmap, hother, -⟩ := make_play_ok_shape hres
      exact ⟨hidx, hmap, hother⟩
    | error pr =>
      obtain ⟨e, r2⟩ := pr
      rw [runOp_play_error hres]
      obtain ⟨hidx, -, -, hmap, hother⟩ := make_play_error_shape hres
      exact ⟨hidx, hmap, hother⟩
  · intro r hpos
    exact ⟨rfl, rfl, rfl, rfl, rfl, rfl⟩

/-! ## Claim C1: card conservation (amended) -/

/-- C1 (amended) — card conservation: a successful `distribute_cards`
conserves the total card count (and, started from a fresh round with an
empty discard pile, leaves the total equal to the pre-deal deck size);
`make_player_reveal_two_cards` (in any outcome) and `next_player` always
conserve it; every **successful** `make_current_player_play` conserves
it.  (A play that fails after drawing loses the drawn card — see the
counterexample — hence the restriction to successful plays.) -/
theorem c1_card_conservation_amended :
    (∀ (r r1 : Round) (cfg : Nat × Nat),
      r.distribute_cards cfg = Except.ok r1 → r1.totalCards = r.totalCards) ∧
    (∀ (r r1 : Round) (cfg : Nat × Nat), r.discard_pile = [] →
      r.distribute_cards cfg = Except.ok r1 → r1.totalCards = r.cards_deck.length) ∧
    (∀ r : Round, (r.runOp EngineOp.revealTwo).totalCards = r.totalCards) ∧
    (∀ (r r1 : Round) (s : RoundState),
      r.make_current_player_play = Except.ok (s, r1) → r1.totalCards = r.totalCards) ∧
    (∀ r : Round, (r.runOp EngineOp.next).totalCards = r.totalCards) := by
  have hdist : ∀ (r r1 : Round) (cfg : Nat × Nat),
      r.distribute_cards cfg = Except.ok r1 → r1.totalCards = r.totalCards := by
    intro r r1 cfg h
    have h2 : r.distribute_cards (cfg.1, cfg.2) = Except.ok r1 := h
    obtain ⟨-, -, -, -, -, -, -, -, -, -, htot⟩ := distribute_ok h2
    exact htot
  refine ⟨hdist, ?_, ?_, ?_, ?_⟩
  · intro r r1 cfg hdisc h
    have h2 : r.distribute_cards (cfg.1, cfg.2) = Except.ok r1 := h
    obtain ⟨hnone, -, -, -, -, -, -, -, -, -, htot⟩ := distribute_ok h2
    rw [htot]
    unfold Round.totalCards
    rw [hdisc]
    have hsum0 : (r.players.map Player.cardCount).sum = 0 := by
      apply List.sum_eq_zero
      intro x hx
      obtain ⟨p, hp, hpx⟩ := List.mem_map.mp hx
      rw [← hpx]
      simp [Player.cardCount, hnone p hp]
    rw [hsum0]
    simp
  · intro r
    have h := make_reveal_total r
    show (match r.make_player_reveal_two_cards with
      | Except.ok r2 => r2
      | Except.error (_, r2) => r2).totalCards = r.totalCards
    cases hres : r.make_player_reveal_two_cards with
    | ok r2 =>
      rw [hres] at h
      simp only [outState] at h
      exact h
    | error pr =>
      obtain ⟨e, r2⟩ := pr
      rw [hres] at h
      simp only [outState] at h
      exact h
  · intro r r1 s h
    exact make_play_ok_total h
  · intro r
    rfl

/-! ## Claim C4: discard count and order of a play -/

theorem getD_set_ne {l : List (Option Card)} {n m : Nat} {a : Option Card}
    (h : n ≠ m) : (l.set n a).getD m none = l.getD m none := by
  rw [List.getD_eq_getElem?_getD, List.getD_eq_getElem?_getD, List.getElem?_set_ne h]

theorem pick_card_ok_bounds {g g1 : GridOfCards} {row col : Nat} {card : Card}
    (h : g.pick_card row col = Except.ok (card, g1)) :
    row < g.rows ∧ col < g.cols := by
  unfold GridOfCards.pick_card at h
  split at h
  · simp at h
  · rename_i idx hidx
    obtain ⟨h1, h2, -⟩ := getIndex_ok hidx
    exact ⟨h1, h2⟩

/-- The three cards a successful `pick_column` returns are the cells of
rows 0, 1, 2 of that column, in that order. -/
theorem pick_column_cells {g g2 : GridOfCards} {col : Nat} {c0 c1 c2 : Card}
    (h : g.pick_column col = Except.ok ((c0, c1, c2), g2)) :
    g.cell 0 col = some c0 ∧ g.cell 1 col = some c1 ∧ g.cell 2 col = some c2 := by
  unfold GridOfCards.pick_column at h
  split at h
  · simp at h
  · split at h
    · simp at h
    · rename_i d0 ga hp0
      split at h
      · simp at h
      · rename_i d1 gb hp1
        split at h
        · simp at h
        · rename_i d2 gc hp2
          simp only [Except.ok.injEq, Prod.mk.injEq] at h
          obtain ⟨⟨rfl, rfl, rfl⟩, rfl⟩ := h
          have hcolpos : 0 < g.cols := by
            obtain ⟨-, hc⟩ := pick_card_ok_bounds hp0
            omega
          obtain ⟨hra, hca, -, -, hcell0⟩ := pick_card_ok hp0
          obtain ⟨hrb, hcb, -, -, hcell1⟩ := pick_card_ok hp1
          obtain ⟨-, -, -, -, hcell2⟩ := pick_card_ok hp2
          have hga : ga.cards = g.cards.set (0 * g.cols + col) none := by
            unfold GridOfCards.pick_card at hp0
            split at hp0
            · simp at hp0
            · rename_i idx hidx
              obtain ⟨-, -, rfl⟩ := getIndex_ok hidx
              split at hp0
              · simp at hp0
              · simp only [Except.ok.injEq, Prod.mk.injEq] at hp0
                rw [← hp0.2]
          have hgb : gb.cards = ga.cards.set (1 * g.cols + col) none := by
            unfold GridOfCards.pick_card at hp1
            split at hp1
            · simp at hp1
            · rename_i idx hidx
              obtain ⟨-, -, rfl⟩ := getIndex_ok hidx
              split at hp1
              · simp at hp1
              · simp only [Except.ok.injEq, Prod.mk.injEq] at hp1
                rw [← hp1.2, hca]
          refine ⟨hcell0, ?_, ?_⟩
          · unfold GridOfCards.cell
            rw [hca] at hcell1
            rw [hga, getD_set_ne (by omega)] at hcell1
            exact hcell1
          · unfold GridOfCards.cell
            rw [hcb, hca] at hcell2
            rw [hgb, getD_set_ne (by omega), hga, getD_set_ne (by omega)] at hcell2
            exact hcell2

/-- C4 — discard count and order of a play: a successful
`Player.play_card` returns exactly one card (the drawn card for
discard-and-reveal, the displaced grid card for replace) when no column
completes afterwards, and exactly four — that card first, then the
completed column's three cards in row 0, 1, 2 order — when a column
completes; and a successful `make_current_player_play` pushes exactly the
returned cards onto the discard pile, in that order. -/
theorem c4_discard_count_order :
    (∀ (p p1 : Player) (g g1 : GridOfCards) (drawn first : Card) (a : PlayerPlayAction)
      (cards : List Card),
      p.cards = some g →
      applyPlayAction g drawn a = Except.ok (first, g1) →
      p.play_card drawn a = Except.ok (cards, p1) →
      (a.action = PlayDecision.discard_drawn_card_and_reveal → first = drawn) ∧
      (a.action = PlayDecision.replace_card_in_grid →
        g.cell a.target_position.1 a.target_position.2 = some first) ∧
      (g1.identify_any_complete_column = Except.ok none → cards = [first]) ∧
      (∀ c, g1.identify_any_complete_column = Except.ok (some c) →
        ∃ c0 c1 c2, g1.cell 0 c = some c0 ∧ g1.cell 1 c = some c1 ∧
          g1.cell 2 c = some c2 ∧ cards = [first, c0, c1, c2]) ∧
      (cards.length = 1 ∨ cards.length = 4)) ∧
    (∀ (r r1 r2 : Round) (cp p1 : Player) (drawn : Card) (cards : List Card)
      (s : RoundState),
      r.players.get? r.current_player_index = some cp →
      r.drawPhase cp = Except.ok (drawn, r1) →
      cp.play_card drawn (cp.strategy.decide_play drawn r1.copy r1.current_player_index) =
        Except.ok (cards, p1) →
      r.make_current_player_play = Except.ok (s, r2) →
      r2.discard_pile = r1.discard_pile ++ cards) := by
  constructor
  · intro p p1 g g1 drawn first a cards hg happ hplay
    have hfirst : (a.action = PlayDecision.discard_drawn_card_and_reveal → first = drawn) ∧
        (a.action = PlayDecision.replace_card_in_grid →
          g.cell a.target_position.1 a.target_position.2 = some first) := by
      unfold applyPlayAction at happ
      split at happ
      · rename_i hact
        split at happ
        · simp at happ
        · simp only [Except.ok.injEq, Prod.mk.injEq] at happ
          refine ⟨fun hh => happ.1.symm, fun hh => ?_⟩
          rw [hact] at hh
          cases hh
      · rename_i hact
        obtain ⟨-, -, -, -, hcell⟩ := replace_card_ok happ
        refine ⟨fun hh => ?_, fun hh => hcell⟩
        rw [hact] at hh
        cases hh
    refine ⟨hfirst.1, hfirst.2, ?_, ?_, ?_⟩ <;>
      (unfold Player.play_card at hplay
       rw [hg] at hplay)
    · intro hid
      split at hplay
      · simp at hplay
      · rename_i g0 heq0
        obtain rfl : g0 = g := by
          injection heq0 with hh
          exact hh.symm
        split at hplay
        · simp at hplay
        · rename_i first0 g10 heq1
          rw [happ] at heq1
          obtain ⟨rfl, rfl⟩ : first0 = first ∧ g10 = g1 := by
            simp only [Except.ok.injEq, Prod.mk.injEq] at heq1
            exact ⟨heq1.1.symm, heq1.2.symm⟩
          split at hplay
          · rename_i heq2
            rw [hid] at heq2
            simp at heq2
          · simp only [Except.ok.injEq, Prod.mk.injEq] at hplay
            exact hplay.1.symm
          · rename_i c heq2
            rw [hid] at heq2
            simp at heq2
    · intro c hid
      split at hplay
      · simp at hplay
      · rename_i g0 heq0
        obtain rfl : g0 = g := by
          injection heq0 with hh
          exact hh.symm
        split at hplay
        · simp at hplay
        · rename_i first0 g10 heq1
          rw [happ] at heq1
          obtain ⟨rfl, rfl⟩ : first0 = first ∧ g10 = g1 := by
            simp only [Except.ok.injEq, Prod.mk.injEq] at heq1
            exact ⟨heq1.1.symm, heq1.2.symm⟩
          split at hplay
          · rename_i heq2
            rw [hid] at heq2
            simp at heq2
          · rename_i heq2
            rw [hid] at heq2
            simp at heq2
          · rename_i c9 heq2
            obtain rfl : c = c9 := by
              rw [hid] at heq2
              simpa using heq2
            split at hplay
            · simp at hplay
            · rename_i ca cb cc g2 hpick
              simp only [Except.ok.injEq, Prod.mk.injEq] at hplay
              obtain ⟨hc0, hc1, hc2⟩ := pick_column_cells hpick
              exact ⟨ca, cb, cc, hc0, hc1, hc2, hplay.1.symm⟩
    · split at hplay
      · simp at hplay
      · rename_i g0 heq0
        split at hplay
        · simp at hplay
        · split at hplay
          · simp at hplay
          · simp only [Except.ok.injEq, Prod.mk.injEq] at hplay
            left
            rw [← hplay.1]
            rfl
          · split at hplay
            · simp at hplay
            · simp only [Except.ok.injEq, Prod.mk.injEq] at hplay
              right
              rw [← hplay.1]
              rfl
  · intro r r1 r2 cp p1 drawn cards s hcp hdraw hplay hmk
    unfold Round.make_current_player_play at hmk
    split at hmk
    · simp at hmk
    · split at hmk
      · simp at hmk
      · rename_i cp0 heq0
        obtain rfl : cp0 = cp := by
          rw [hcp] at heq0
          injection heq0 with hh
          exact hh.symm
        split at hmk
        · rename_i e1 heq1
          rw [hdraw] at heq1
          simp at heq1
        · rename_i drawn0 r10 heq1
          rw [hdraw] at heq1
          obtain ⟨rfl, rfl⟩ : drawn0 = drawn ∧ r10 = r1 := by
            simp only [Except.ok.injEq, Prod.mk.injEq] at heq1
            exact ⟨heq1.1.symm, heq1.2.symm⟩
          split at hmk
          · rename_i e2 p2 heq2
            rw [hplay] at heq2
            simp at heq2
          · rename_i cards0 p10 heq2
            rw [hplay] at heq2
            obtain ⟨rfl, rfl⟩ : cards0 = cards ∧ p10 = p1 := by
              simp only [Except.ok.injEq, Prod.mk.injEq] at heq2
              exact ⟨heq2.1.symm, heq2.2.symm⟩
            obtain ⟨-, -, hfd, -, -, -⟩ := finishPlay_ok hmk
            exact hfd

/-! ## Claim C7 (amended): the deal guards of the Player -/

/-- C7 (amended) — `place_distributed_cards` fails with the
`ShapeMismatch` error (`ImpossibleGameStateError` in the source) whenever
the hand length differs from `rows*cols`, leaving the player (and any
existing grid) untouched; but when the length matches it **always**
succeeds, silently replacing any existing grid with the new row-major
one — there is no `AlreadyDealt` check. -/
theorem c7_place_distributed_guards (p : Player) (cards : List Card) (rows cols : Nat) :
    (cards.length ≠ rows * cols →
      p.place_distributed_cards cards (rows, cols) =
        Except.error
          (Err.impossibleGameStateError "Number of cards does not match grid size", p)) ∧
    (cards.length = rows * cols →
      p.place_distributed_cards cards (rows, cols) =
        Except.ok { p with cards := some ⟨cards.map some, rows, cols⟩ }) := by
  constructor
  · intro hne
    unfold Player.place_distributed_cards
    dsimp only
    rw [if_pos hne]
  · intro heq
    exact place_distributed_ok heq

/-! ## Claim C8 (amended): draw-source exhaustion -/

/-- C8 (amended) — draw-source exhaustion: when the strategy chooses the
deck and the deck is empty (resp. the discard pile and it is empty),
`make_current_player_play` fails with Python's `IndexError` from
`list.pop()` — the same error value for both sources, not dedicated
`EmptyDeck`/`EmptyDiscard` kinds — leaving the round untouched; when the
chosen source is non-empty, the draw phase succeeds. -/
theorem c8_draw_exhaustion_amended (r : Round) (cp : Player)
    (hstate : r.state = RoundState.ongoing ∨ r.state = RoundState.last_turn)
    (hcp : r.players.get? r.current_player_index = some cp) :
    (cp.strategy.decide_draw r.copy r.current_player_index = DrawDecision.draw_from_deck →
      r.cards_deck = [] →
      r.make_current_player_play = Except.error (Err.indexError "pop from empty list", r)) ∧
    (cp.strategy.decide_draw r.copy r.current_player_index = DrawDecision.draw_from_discard →
      r.discard_pile = [] →
      r.make_current_player_play = Except.error (Err.indexError "pop from empty list", r)) ∧
    (cp.strategy.decide_draw r.copy r.current_player_index = DrawDecision.draw_from_deck →
      r.cards_deck ≠ [] → exceptIsOk (r.drawPhase cp) = true) ∧
    (cp.strategy.decide_draw r.copy r.current_player_index = DrawDecision.draw_from_discard →
      r.discard_pile ≠ [] → exceptIsOk (r.drawPhase cp) = true) := by
  have hmk : ∀ e1, r.drawPhase cp = Except.error e1 →
      r.make_current_player_play = Except.error e1 := by
    intro e1 hdp
    unfold Round.make_current_player_play
    rw [if_neg (not_not_intro hstate)]
    split
    · rename_i heq
      rw [hcp] at heq
      simp at heq
    · rename_i cp0 heq
      obtain rfl : cp0 = cp := by
        rw [hcp] at heq
        injection heq with hh
        exact hh.symm
      split
      · rename_i e2 heq2
        rw [hdp] at heq2
        injection heq2 with hh
        rw [hh]
      · rename_i drawn r1 heq2
        rw [hdp] at heq2
        simp at heq2
  have hdeck : ∀ hdec : cp.strategy.decide_draw r.copy r.current_player_index =
      DrawDecision.draw_from_deck, r.cards_deck = [] →
      r.drawPhase cp = Except.error (Err.indexError "pop from empty list", r) := by
    intro hdec hempty
    unfold Round.drawPhase
    split
    · rename_i heq
      split
      · rfl
      · rename_i pr hpop
        rw [hempty] at hpop
        simp [listPop] at hpop
    · rename_i heq
      rw [hdec] at heq
      cases heq
  have hdisc : ∀ hdec : cp.strategy.decide_draw r.copy r.current_player_index =
      DrawDecision.draw_from_discard, r.discard_pile = [] →
      r.drawPhase cp = Except.error (Err.indexError "pop from empty list", r) := by
    intro hdec hempty
    unfold Round.drawPhase
    split
    · rename_i heq
      rw [hdec] at heq
      cases heq
    · rename_i heq
      split
      · rfl
      · rename_i pr hpop
        rw [hempty] at hpop
        simp [listPop] at hpop
  refine ⟨?_, ?_, ?_, ?_⟩
  · intro hdec hempty
    exact hmk _ (hdeck hdec hempty)
  · intro hdec hempty
    exact hmk _ (hdisc hdec hempty)
  · intro hdec hne
    unfold Round.drawPhase
    split
    · rename_i heq
      cases hpop : listPop r.cards_deck with
      | none => exact absurd (listPop_eq_none.mp hpop) hne
      | some pr =>
        obtain ⟨c, deck1⟩ := pr
        rfl
    · rename_i heq
      rw [hdec] at heq
      cases heq
  · intro hdec hne
    unfold Round.drawPhase
    split
    · rename_i heq
      rw [hdec] at heq
      cases heq
    · rename_i heq
      cases hpop : listPop r.discard_pile with
      | none => exact absurd (listPop_eq_none.mp hpop) hne
      | some pr =>
        obtain ⟨c, pile1⟩ := pr
        rfl

/-! ## Claim C10: a failed play loses the drawn card -/

/-- C10 — `make_current_player_play` is not atomic on a failed play: when
the draw succeeds but applying the strategy's chosen play action fails,
the error propagates with the round having already lost the drawn card
from its source — it is in no zone of the errored round, whose total card
count is one lower, while the state tag and cursor are unchanged. -/
theorem c10_play_not_atomic {r r1 : Round} {cp : Player} {drawn : Card}
    {g : GridOfCards} {e0 : Err}
    (hstate : r.state = RoundState.ongoing ∨ r.state = RoundState.last_turn)
    (hcp : r.players.get? r.current_player_index = some cp)
    (hdraw : r.drawPhase cp = Except.ok (drawn, r1))
    (hg : cp.cards = some g)
    (happ : applyPlayAction g drawn
        (cp.strategy.decide_play drawn r1.copy r1.current_player_index) =
      Except.error e0) :
    r.make_current_player_play = Except.error (e0, r1) ∧
      r1.state = r.state ∧
      r1.current_player_index = r.current_player_index ∧
      r1.totalCards + 1 = r.totalCards := by
  obtain ⟨hpl, hst, hidx, -, -, htot⟩ := drawPhase_ok hdraw
  have hplayerr : cp.play_card drawn
      (cp.strategy.decide_play drawn r1.copy r1.current_player_index) =
      Except.error (e0, cp) := by
    unfold Player.play_card
    split
    · rename_i heq
      rw [hg] at heq
      cases heq
    · rename_i g0 heq
      obtain rfl : g0 = g := by
        rw [hg] at heq
        injection heq with hh
        exact hh.symm
      split
      · rename_i e1 heq2
        rw [happ] at heq2
        injection heq2 with hh
        rw [hh]
      · rename_i first g1 heq2
        rw [happ] at heq2
        cases heq2
  have hsetself : r1.players.set r1.current_player_index cp = r1.players := by
    apply list_set_self
    rw [hpl, hidx]
    exact hcp
  refine ⟨?_, hst, hidx, htot⟩
  unfold Round.make_current_player_play
  rw [if_neg (not_not_intro hstate)]
  split
  · rename_i heq
    rw [hcp] at heq
    cases heq
  · rename_i cp0 heq
    obtain rfl : cp0 = cp := by
      rw [hcp] at heq
      injection heq with hh
      exact hh.symm
    split
    · rename_i e1 heq2
      rw [hdraw] at heq2
      cases heq2
    · rename_i drawn0 r10 heq2
      obtain ⟨rfl, rfl⟩ : drawn0 = drawn ∧ r10 = r1 := by
        rw [hdraw] at heq2
        simp only [Except.ok.injEq, Prod.mk.injEq] at heq2
        exact ⟨heq2.1.symm, heq2.2.symm⟩
      split
      · rename_i e2 p1 heq3
        rw [hplayerr] at heq3
        simp only [Except.error.injEq, Prod.mk.injEq] at heq3
        obtain ⟨he, hp⟩ := heq3
        rw [← hp, hsetself, ← he]
      · rename_i cards p1 heq3
        rw [hplayerr] at heq3
        cases heq3

/-! ## Counterexamples and witnesses -/

/-- C1 counterexample — the claim as stated is false: starting from a
fresh one-player round, after `distribute` and the initial reveals the
total card count is 14, but the next `make_current_player_play` (whose
strategy targets an already face-up cell) fails after drawing and leaves
only 13 cards across all zones: the engine destroyed a card. -/
theorem c1_counterexample :
    round2.totalCards = 14 ∧
      round2.state = RoundState.ongoing ∧
      (round2.runOp EngineOp.play).totalCards = 13 := by
  refine ⟨?_, ?_, ?_⟩ <;> rfl

/-- C1 witness: the amended conservation statement holds on the concrete
`round1`, whose successful distribution keeps the total at the pre-deal
deck size. -/
theorem c1_witness :
    (round1.runOp (EngineOp.distribute (3, 4))).totalCards = round1.cards_deck.length :=
  c1_card_conservation_amended.2.1 round1 (round1.runOp (EngineOp.distribute (3, 4)))
    (3, 4) rfl rfl

/-- C2 witness: on the concrete `round1`, player 0's cell `(1, 2)` holds
the deck card picked out by the interleaved row-major formula. -/
theorem c2_witness :
    (round1.runOp (EngineOp.distribute (3, 4))).playerGridCell 0 1 2 =
      some (round1.cards_deck.getD
        (round1.cards_deck.length - 1 - ((1 * 4 + 2) * round1.players.length + 0)) default) :=
  @c2_distribute_interleaved_rowmajor round1 (round1.runOp (EngineOp.distribute (3, 4)))
    3 4 0 1 2 rfl (by decide) (by decide) (by decide)

/-- C3 witness: on a concrete `LAST_TURN` round, an engine step keeps the
state and the recorded trigger. -/
theorem c3_witness :
    (lastTurnRound.runOp EngineOp.next).state = RoundState.last_turn ∧
      (lastTurnRound.runOp EngineOp.next).player_who_triggered_last_turn =
        lastTurnRound.player_who_triggered_last_turn :=
  c3_last_turn_trigger_once.1 lastTurnRound EngineOp.next rfl

/-- C4 witness: the discard-order statement instantiated on a concrete
play (discard-and-reveal, no column completing). -/
theorem c4_witness :
    (actA.action = PlayDecision.discard_drawn_card_and_reveal → drawnA = drawnA) ∧
      (actA.action = PlayDecision.replace_card_in_grid →
        gridA.cell actA.target_position.1 actA.target_position.2 = some drawnA) ∧
      (gridA1.identify_any_complete_column = Except.ok none → [drawnA] = [drawnA]) ∧
      (∀ c, gridA1.identify_any_complete_column = Except.ok (some c) →
        ∃ c0 c1 c2, gridA1.cell 0 c = some c0 ∧ gridA1.cell 1 c = some c1 ∧
          gridA1.cell 2 c = some c2 ∧ [drawnA] = [drawnA, c0, c1, c2]) ∧
      (([drawnA] : List Card).length = 1 ∨ ([drawnA] : List Card).length = 4) :=
  c4_discard_count_order.1 playerA playerA1 gridA gridA1 drawnA drawnA actA [drawnA]
    rfl rfl rfl

/-- C6 witness: the distribute postcondition instantiated on the concrete
`round1`. -/
theorem c6_witness :
    (round1.runOp (EngineOp.distribute (3, 4))).state =
        RoundState.awaiting_two_cards_reveal ∧
      (round1.runOp (EngineOp.distribute (3, 4))).discard_pile.length = 1 := by
  have h := c6_distribute_postcondition (r := round1) (by decide) (by decide) rfl rfl
    (by decide) (by decide)
  exact ⟨h.2.2.2.2.1, h.2.2.1⟩

/-- C7 counterexample — the claim as stated is false: `playerA` already
holds a grid, yet `place_distributed_cards` with a matching hand does not
fail with `AlreadyDealt`; it succeeds and silently replaces the grid. -/
theorem c7_counterexample :
    playerA.cards = some gridA ∧
      (match playerA.place_distributed_cards handB (3, 4) with
        | Except.ok p1 => p1.cards
        | Except.error _ => none) = some ⟨handB.map some, 3, 4⟩ ∧
      (⟨handB.map some, 3, 4⟩ : GridOfCards) ≠ gridA := by
  refine ⟨rfl, rfl, by decide⟩

/-- C7 witness: the amended guard statement instantiated on `playerA`
and a matching hand. -/
theorem c7_witness :
    playerA.place_distributed_cards handB (3, 4) =
      Except.ok { playerA with cards := some ⟨handB.map some, 3, 4⟩ } :=
  (c7_place_distributed_guards playerA handB 3 4).2 (by decide)

/-- C8 counterexample — the claim as stated is false: drawing from the
empty deck and drawing from the empty discard pile fail with the *same*
error value (Python's `IndexError: pop from empty list`), so the code has
no dedicated, distinguishable `EmptyDeck` / `EmptyDiscard` error kinds. -/
theorem c8_counterexample :
    errOf emptyDeckRound = errOf emptyDiscardRound ∧
      errOf emptyDeckRound = some (Err.indexError "pop from empty list") :=
  ⟨rfl, rfl⟩

/-- C8 witness: the amended exhaustion statement instantiated on the
concrete empty-deck round. -/
theorem c8_witness :
    emptyDeckRound.make_current_player_play =
      Except.error (Err.indexError "pop from empty list", emptyDeckRound) :=
  (c8_draw_exhaustion_amended emptyDeckRound playerA (Or.inl rfl) rfl).1 rfl rfl

/-- C9 witness: the cursor formula instantiated on a concrete round. -/
theorem c9_witness :
    lastTurnRound.next_player.current_player_index =
        (lastTurnRound.current_player_index + 1) % lastTurnRound.players.length ∧
      lastTurnRound.next_player.players = lastTurnRound.players ∧
      lastTurnRound.next_player.cards_deck = lastTurnRound.cards_deck ∧
      lastTurnRound.next_player.discard_pile = lastTurnRound.discard_pile ∧
      lastTurnRound.next_player.state = lastTurnRound.state ∧
      lastTurnRound.next_player.player_who_triggered_last_turn =
        lastTurnRound.player_who_triggered_last_turn :=
  c9_turn_does_not_advance_cursor.2 lastTurnRound (by decide)

/-- C10 witness: on the concrete `round2`, the failing play (reveal of an
already face-up cell) loses the drawn card: the errored round has one
card less. -/
theorem c10_witness :
    round2.make_current_player_play =
      Except.error (Err.cardStateError "Card at position is already face up",
        { round2 with cards_deck := [] }) ∧
      ({ round2 with cards_deck := [] } : Round).totalCards + 1 = round2.totalCards := by
  have h := @c10_play_not_atomic round2 { round2 with cards_deck := [] } _ _ _ _
    (Or.inl rfl) rfl rfl rfl rfl
  exact ⟨h.1, h.2.2.2⟩

end Skyjoliance
